import Mathlib

/-!
Verification of the FIO-benchmark parsing/aggregation script
(`parser-script.py`).

The script is embedded shallowly:

* JSON documents are the inductive type `Json`; numeric values are modelled
  by `ℚ` (the script computes with Python floats; all values appearing in
  the specified behaviours are exactly representable, and rounding of the
  2-decimal textual rendering is abstracted away — cells keep exact values).
* Python's dynamic attribute/item accesses (`dict.get`, `in`, subscript,
  `len`, `+`, `/`, `str.format`) are modelled by small total functions into
  `Except PyError _`; an `Except.error` models an uncaught Python exception
  escaping the enclosing function.
* File reading is modelled by `FileInput`: the file may be missing
  (`FileNotFoundError`), present but unreadable (an `OSError` other than
  `FileNotFoundError`), readable but not valid JSON (`json.JSONDecodeError`),
  or readable with a parsed JSON document.
* Console diagnostics (`print` calls on error paths) are modelled as lists
  of strings carried in the results (the file-path interpolation of the
  original messages is abstracted to fixed strings).
-/

/-- Python exception classes that the modelled code can raise. -/
inductive PyError where
  | typeError
  | attributeError
  | keyError
  | indexError
  | osError
  | valueError (msg : String)
deriving DecidableEq, Repr

/-- A JSON document, as produced by `json.load`.  Objects are kept as
association lists in source order; duplicate keys are resolved last-wins
(`lookupLast`), matching Python's `json.load`. -/
inductive Json where
  | null
  | bool (b : Bool)
  | num (q : ℚ)
  | str (s : String)
  | arr (elems : List Json)
  | obj (fields : List (String × Json))

/-- Last-wins lookup in an association list: the value a Python dict built
from this key/value sequence would hold for `k`. -/
def lookupLast {α : Type} (kvs : List (String × α)) (k : String) : Option α :=
  match kvs with
  | [] => none
  | (k2, v) :: rest =>
    match lookupLast rest k with
    | some r => some r
    | none => if k2 = k then some v else none

/-- Python truthiness of a JSON-derived value. -/
def truthy : Json → Bool
  | .null => false
  | .bool b => b
  | .num q => q ≠ 0
  | .str s => s ≠ ""
  | .arr l => !l.isEmpty
  | .obj kvs => !kvs.isEmpty

/-- Number of distinct keys, i.e. `len` of the Python dict built from the
association list. -/
def distinctKeyCount (kvs : List (String × Json)) : Nat :=
  (kvs.map Prod.fst).dedup.length

/-- `x.get(k, default)`: only dicts have `.get`; anything else raises
`AttributeError`. -/
def pyGet (j : Json) (k : String) (default : Json) : Except PyError Json :=
  match j with
  | .obj kvs => .ok ((lookupLast kvs k).getD default)
  | _ => .error .attributeError

/-- `k in x` for a string `k`: key membership for dicts, element membership
for lists, substring test for strings, `TypeError` otherwise. -/
def pyContains (j : Json) (k : String) : Except PyError Bool :=
  match j with
  | .obj kvs => .ok (lookupLast kvs k).isSome
  | .arr l => .ok (l.any (fun x => match x with | .str s => s = k | _ => false))
  | .str s => .ok (decide (k.data <:+: s.data))
  | _ => .error .typeError

/-- `x[k]` for a string key `k`: dict subscript (`KeyError` when absent);
list and string subscripts need integer indices (`TypeError`). -/
def pySubscript (j : Json) (k : String) : Except PyError Json :=
  match j with
  | .obj kvs =>
    match lookupLast kvs k with
    | some v => .ok v
    | none => .error .keyError
  | _ => .error .typeError

/-- `len(x)`: length of a list, string or dict; `TypeError` otherwise. -/
def pyLen (j : Json) : Except PyError Nat :=
  match j with
  | .arr l => .ok l.length
  | .str s => .ok s.length
  | .obj kvs => .ok (distinctKeyCount kvs)
  | _ => .error .typeError

/-- `x[0]`: first element of a list, first character of a string (as a
one-character string), `KeyError` for a JSON object (its keys are strings,
so the integer key `0` is absent), `TypeError` otherwise. -/
def pyIndexZero (j : Json) : Except PyError Json :=
  match j with
  | .arr (x :: _) => .ok x
  | .arr [] => .error .indexError
  | .str s =>
    match s.data with
    | [] => .error .indexError
    | c :: _ => .ok (.str (String.mk [c]))
  | .obj _ => .error .keyError
  | _ => .error .typeError

/-- Python `+` on JSON-derived values (bools act as the integers 0/1;
strings and lists concatenate; other combinations raise `TypeError`). -/
def pyAdd (a b : Json) : Except PyError Json :=
  match a, b with
  | .num x, .num y => .ok (.num (x + y))
  | .num x, .bool y => .ok (.num (x + if y then 1 else 0))
  | .bool x, .num y => .ok (.num ((if x then 1 else 0) + y))
  | .bool x, .bool y => .ok (.num ((if x then 1 else 0) + if y then 1 else 0))
  | .str x, .str y => .ok (.str (x ++ y))
  | .arr x, .arr y => .ok (.arr (x ++ y))
  | _, _ => .error .typeError

/-- Python `x / d` for a numeric literal divisor `d` (never 0 at the call
sites): numbers and bools divide, everything else raises `TypeError`. -/
def pyDiv (a : Json) (d : ℚ) : Except PyError Json :=
  match a with
  | .num x => .ok (.num (x / d))
  | .bool x => .ok (.num ((if x then 1 else 0) / d))
  | _ => .error .typeError

/-- The numeric value used when a metric is rendered with `f"{value:.2f}"`
and subsequently aggregated: numbers and bools format fine, any other type
raises (the precise exception class — `ValueError` for strings,
`TypeError` for `None`/lists/dicts — is collapsed to `typeError`). -/
def pyToQ (a : Json) : Except PyError ℚ :=
  match a with
  | .num x => .ok x
  | .bool x => .ok (if x then 1 else 0)
  | _ => .error .typeError

/-- `job_data.get(sect, {}).get(field, default)`. -/
def pyGetIn (job : Json) (sect field : String) (default : Json) :
    Except PyError Json := do
  let s ← pyGet job sect (.obj [])
  pyGet s field default

/-- One latency probe: `job_data.get(sect, {}).get(field)` (default `None`). -/
def candidate (job : Json) (sect field : String) : Except PyError Json :=
  pyGetIn job sect field .null

/-- The six-way `if/elif` latency probe of lines 54–72: the selected
truthy candidate together with its unit-conversion factor, or `none`
(Python `latency_data is None`, which is also falsy) when every candidate
is absent or falsy. -/
def selectLatency (job : Json) : Except PyError (Option (Json × ℚ)) := do
  let c1 ← candidate job "read" "lat_ns"
  if truthy c1 then pure (some (c1, 1000000)) else do
  let c2 ← candidate job "read" "lat_us"
  if truthy c2 then pure (some (c2, 1000)) else do
  let c3 ← candidate job "read" "lat_ms"
  if truthy c3 then pure (some (c3, 1)) else do
  let c4 ← candidate job "write" "lat_ns"
  if truthy c4 then pure (some (c4, 1000000)) else do
  let c5 ← candidate job "write" "lat_us"
  if truthy c5 then pure (some (c5, 1000)) else do
  let c6 ← candidate job "write" "lat_ms"
  if truthy c6 then pure (some (c6, 1))
  else pure none

/-- Lines 74–84: from the selected latency candidate, the values of
`avg_latency` and `stdev_latency` and their common unit.  The source tests
`if latency_data:`; the winner of the probe is truthy by construction, so
the test is equivalent to the `Option` match. -/
def latPart (sel : Option (Json × ℚ)) : Except PyError (Json × Json × String) :=
  match sel with
  | some (ld, factor) => do
    let m ← pyGet ld "mean" (.num 0)
    let avg ← pyDiv m factor
    let sd ← pyGet ld "stddev" (.num 0)
    let sdv ← pyDiv sd factor
    pure (avg, sdv, "ms")
  | none => pure (.num 0, .num 0, "N/A")

/-- Lines 32–90: metric extraction from the first job entry.  The returned
association lists mirror the insertion order of the Python dicts
`metrics` and `units`. -/
def extractJob (job : Json) :
    Except PyError (List (String × Json) × List (String × String)) := do
  let usr ← pyGet job "usr_cpu" (.num 0)
  let sys ← pyGet job "sys_cpu" (.num 0)
  let total ← pyAdd usr sys
  let rbw ← pyGetIn job "read" "bw" (.num 0)
  let wbw ← pyGetIn job "write" "bw" (.num 0)
  let bwsum ← pyAdd rbw wbw
  let bw ← pyDiv bwsum 1024
  let sel ← selectLatency job
  let lat ← latPart sel
  let riops ← pyGetIn job "read" "iops" (.num 0)
  let wiops ← pyGetIn job "write" "iops" (.num 0)
  let iops ← pyAdd riops wiops
  pure
    ([("cpu_usr", usr), ("cpu_sys", sys), ("cpu_total", total),
      ("bandwidth", bw), ("avg_latency", lat.1), ("stdev_latency", lat.2.1),
      ("iops", iops)],
     [("cpu_usr", "%"), ("cpu_sys", "%"), ("cpu_total", "%"),
      ("bandwidth", "MiB/s"), ("avg_latency", lat.2.2),
      ("stdev_latency", lat.2.2), ("iops", "ops/s")])

/-- What `open(file_path)` followed by `json.load` can encounter. -/
inductive FileInput where
  | missing
  | unreadable
  | invalidJson
  | valid (doc : Json)

/-- The result of one `parse_fio_output` call: the diagnostics printed and
the `metrics`/`units` dicts returned. -/
structure ExtractOut where
  diags : List String
  metrics : List (String × Json)
  units : List (String × String)

/-- Lines 9–92, `parse_fio_output`: `FileNotFoundError` and
`json.JSONDecodeError` are caught (diagnostic, empty result); other
`OSError`s are not caught; a missing or empty `jobs` collection yields an
empty result silently; otherwise the first job entry is extracted, and any
exception raised on the way propagates. -/
def parse_fio_output (input : FileInput) : Except PyError ExtractOut :=
  match input with
  | .missing => .ok ⟨["Error: File not found"], [], []⟩
  | .unreadable => .error .osError
  | .invalidJson => .ok ⟨["Error: Invalid JSON"], [], []⟩
  | .valid data => do
    let hasJobs ← pyContains data "jobs"
    if hasJobs then do
      let jobs ← pySubscript data "jobs"
      let n ← pyLen jobs
      if 0 < n then do
        let job ← pyIndexZero jobs
        let mu ← extractJob job
        pure ⟨[], mu.1, mu.2⟩
      else pure ⟨[], [], []⟩
    else pure ⟨[], [], []⟩

/-- Lines 94–126, `generate_fio_filenames`: rejects a non-positive
iteration count or an empty prefix with `ValueError` (the `isinstance`
guards are subsumed by the embedding's types), otherwise returns
`pfx ++ i ++ ".json"` for `i = 1 .. num_iterations`. -/
def generate_fio_filenames (num_iterations : Int) (pfx : String) :
    Except PyError (List String) :=
  if num_iterations ≤ 0 then
    .error (.valueError "num_iterations must be a positive integer.")
  else if pfx = "" then
    .error (.valueError "prefix must be a non-empty string.")
  else
    .ok ((List.range num_iterations.toNat).map
      (fun i => pfx ++ toString (i + 1) ++ ".json"))

/-- Python `dict.update`: existing keys are overwritten in place, new keys
are appended in iteration order. -/
def dictUpdate (m u : List (String × String)) : List (String × String) :=
  u.foldl
    (fun acc kv =>
      if acc.any (fun p => p.1 = kv.1) then
        acc.map (fun p => if p.1 = kv.1 then (p.1, kv.2) else p)
      else acc ++ [kv])
    m

/-- `all_metrics[key].append(value)` on a `defaultdict(list)`: append to the
existing series, or register the key (at the end, preserving first-seen
order) with a one-element series. -/
def addMetric (m : List (String × List ℚ)) (k : String) (v : ℚ) :
    List (String × List ℚ) :=
  if m.any (fun p => p.1 = k) then
    m.map (fun p => if p.1 = k then (p.1, p.2 ++ [v]) else p)
  else m ++ [(k, [v])]

/-- One entry of `individual_run_data`: the 1-based run number and the
cells keyed `"name (unit)"` (the 2-decimal rendering is abstracted, cells
keep the exact value). -/
structure RunRow where
  run : Nat
  cells : List (String × ℚ)
deriving DecidableEq, Repr

/-- The accumulating state of the parsing loop of lines 162–196. -/
structure LoopState where
  allMetrics : List (String × List ℚ)
  unitsMap : List (String × String)
  avgVals : List ℚ
  stdevVals : List ℚ
  rows : List RunRow
  diags : List String
deriving DecidableEq, Repr

def initState : LoopState := ⟨[], [], [], [], [], []⟩

/-- Lines 182–187: the inner loop over one run's metrics.  Each value is
first rendered with `f"{value:.2f}"` (which raises for non-numeric values
— `pyToQ`), then appended to its series and stored in the run's row. -/
def innerLoop (units : List (String × String)) (ms : List (String × Json))
    (allMetrics : List (String × List ℚ)) (cells : List (String × ℚ)) :
    Except PyError (List (String × List ℚ) × List (String × ℚ)) :=
  match ms with
  | [] => .ok (allMetrics, cells)
  | (key, value) :: rest => do
    let q ← pyToQ value
    innerLoop units rest (addMetric allMetrics key q)
      (cells ++ [(key ++ " (" ++ ((lookupLast units key).getD "") ++ ")", q)])

/-- Lines 190–192: `avg_latency` is collected for the overall min/max only
when present with a unit other than `"N/A"` (the run's raw value; its
re-conversion by `pyToQ` cannot fail or change it, since the inner loop
already rendered it). -/
def collectAvgStep (out : ExtractOut) (st : LoopState) :
    Except PyError LoopState :=
  match lookupLast out.metrics "avg_latency" with
  | some v =>
    if (lookupLast out.units "avg_latency") ≠ some "N/A" then do
      let q ← pyToQ v
      pure { st with avgVals := st.avgVals ++ [q] }
    else pure st
  | none => pure st

/-- Lines 193–194: likewise for `stdev_latency`. -/
def collectStdevStep (out : ExtractOut) (st : LoopState) :
    Except PyError LoopState :=
  match lookupLast out.metrics "stdev_latency" with
  | some v =>
    if (lookupLast out.units "stdev_latency") ≠ some "N/A" then do
      let q ← pyToQ v
      pure { st with stdevVals := st.stdevVals ++ [q] }
    else pure st
  | none => pure st

/-- Lines 173–196: processing of the file with 0-based index `i`.  A run
whose extraction yields no metrics only contributes a diagnostic;
otherwise the units map is updated, the metrics are rendered and
accumulated, the run row is appended, and the latency values collected. -/
def processOne (i : Nat) (input : FileInput) (st : LoopState) :
    Except PyError LoopState := do
  let out ← parse_fio_output input
  if out.metrics.isEmpty then
    pure { st with diags := (st.diags ++ out.diags)
      ++ ["Could not extract metrics. Skipping."] }
  else do
    let ac ← innerLoop out.units out.metrics st.allMetrics []
    let st4 ← collectAvgStep out
      { st with
        diags := st.diags ++ out.diags,
        unitsMap := dictUpdate st.unitsMap out.units,
        allMetrics := ac.1,
        rows := st.rows ++ [⟨i + 1, ac.2⟩] }
    collectStdevStep out st4

/-- The whole parsing loop, `i` being the 0-based index of the next file. -/
def processFiles (inputs : List FileInput) (i : Nat) (st : LoopState) :
    Except PyError LoopState :=
  match inputs with
  | [] => .ok st
  | f :: rest => do
    let st2 ← processOne i f st
    processFiles rest (i + 1) st2

/-- A cell of the output tables: an exact numeric value (rendered by the
script to 2 decimals), the value `sqrt sq` of the standard-deviation cell
(rendered likewise), or a literal piece of text. -/
inductive Cell where
  | q (x : ℚ)
  | stdevOf (sq : ℚ)
  | str (s : String)
deriving DecidableEq, Repr

/-- The real number a cell renders (`Real.sqrt` for the deferred
standard-deviation cell). -/
noncomputable def cellReal : Cell → ℝ
  | .q x => (x : ℝ)
  | .stdevOf sq => Real.sqrt (sq : ℝ)
  | .str _ => 0

/-- `min(values)` of a non-empty list (the unused `[]` case is junk). -/
def listMin : List ℚ → ℚ
  | [] => 0
  | x :: xs => xs.foldl min x

/-- `max(values)` of a non-empty list (the unused `[]` case is junk). -/
def listMax : List ℚ → ℚ
  | [] => 0
  | x :: xs => xs.foldl max x

/-- `metric_name.replace('_', ' ')`. -/
def replaceUnderscores (s : String) : String :=
  String.mk (s.data.map (fun c => if c = '_' then ' ' else c))

def pyTitleAux : Bool → List Char → List Char
  | _, [] => []
  | prevCased, c :: cs =>
    let cased := c.isAlpha
    (if cased then (if prevCased then c.toLower else c.toUpper) else c)
      :: pyTitleAux cased cs

/-- Python `str.title()` (restricted to ASCII letters, which is all the
metric names contain): a letter is uppercased after a non-letter and
lowercased otherwise. -/
def pyTitle (s : String) : String :=
  String.mk (pyTitleAux false s.data)

/-- `sum([(x - avg_value) ** 2 for x in values])`. -/
def sumSqDiff (values : List ℚ) : ℚ :=
  (values.map (fun x => (x - values.sum / values.length) ^ 2)).sum

/-- Lines 206–227: the summary row of one metric series.  For `n > 1` the
standard-deviation cell renders `sqrt(sum_sq_diff / (n - 1))`
(`Cell.stdevOf` keeps the radicand); for `n = 1` it renders the literal
`"N/A"`; an empty series yields the "No data" row. -/
def aggRow (name unit : String) (values : List ℚ) : List Cell :=
  match values with
  | [] => [.str (pyTitle (replaceUnderscores name)), .str "No data",
           .str "N/A", .str "N/A", .str "N/A", .str "N/A"]
  | _ =>
    [.str (pyTitle (replaceUnderscores name)),
     .q (values.sum / values.length),
     if 1 < values.length then
       .stdevOf (sumSqDiff values / ((values.length : ℚ) - 1))
     else .str "N/A",
     .str unit, .q (listMin values), .q (listMax values)]

/-- Lines 230–241: the extra `Average Latency` min/max row. -/
def avgLatencyRow (st : LoopState) : List Cell :=
  [.str "Average Latency", .str "", .str "",
   .str ((lookupLast st.unitsMap "avg_latency").getD "ms"),
   .q (listMin st.avgVals), .q (listMax st.avgVals)]

/-- Lines 243–254: the extra `Standard Deviation Latency` min/max row. -/
def stdevLatencyRow (st : LoopState) : List Cell :=
  [.str "Standard Deviation Latency", .str "", .str "",
   .str ((lookupLast st.unitsMap "stdev_latency").getD "ms"),
   .q (listMin st.stdevVals), .q (listMax st.stdevVals)]

/-- Lines 203–254: the "Aggregated Metrics" table — header, one summary row
per metric in first-seen order, and the two latency min/max rows, each
present exactly when its collection is non-empty. -/
def aggregatedTable (st : LoopState) : List (List Cell) :=
  ([.str "Metric", .str "Average", .str "Std Dev", .str "Unit",
    .str "Min", .str "Max"]
    :: st.allMetrics.map
      (fun p => aggRow p.1 ((lookupLast st.unitsMap p.1).getD "") p.2))
  ++ (if st.avgVals.isEmpty then [] else [avgLatencyRow st])
  ++ (if st.stdevVals.isEmpty then [] else [stdevLatencyRow st])

/-- Lines 263–269: the per-run CSV header — `'Run'` followed by every cell
key across all runs, in first-seen order. -/
def insKey (acc : List String) (k : String) : List String :=
  if acc.contains k then acc else acc ++ [k]

def fieldnames (rows : List RunRow) : List String :=
  rows.foldl (fun acc r => r.cells.foldl (fun acc2 kv => insKey acc2 kv.1) acc)
    ["Run"]

/-- Line 274: one rendered per-run CSV row — `row.get(key, '')` for each
field name, so a missing metric renders as an empty cell in its own
column. -/
def renderRow (fns : List String) (r : RunRow) : List Cell :=
  fns.map (fun k =>
    if k = "Run" then .q r.run
    else
      match lookupLast r.cells k with
      | some v => .q v
      | none => .str "")

/-- Lines 263–275: the "Individual Run Metrics" section (header and data
rows), omitted when no run contributed data. -/
def perRunSection (rows : List RunRow) :
    Option (List String × List (List Cell)) :=
  if rows.isEmpty then none
  else some (fieldnames rows, rows.map (renderRow (fieldnames rows)))

/-- The observable outcome of `main`: either the early return of lines
198–200 (with its diagnostic, no report written at all), or the report
written to the CSV file. -/
inductive Outcome where
  | noData (diag : String)
  | report (perRun : Option (List String × List (List Cell)))
      (aggregated : List (List Cell))
deriving DecidableEq, Repr

/-- Lines 128–285, `main`, with the filesystem abstracted as a map from
file names to `FileInput`: generate the file names (a `ValueError`
propagates before any file is touched), run the parsing loop, and either
stop with the "no data" diagnostic or produce the two report sections.
(The source calls this function `main`, a name Lean reserves for entry
points.) -/
def pymain (iterations : Int) (pfx : String) (fs : String → FileInput) :
    Except PyError Outcome := do
  let files ← generate_fio_filenames iterations pfx
  let st ← processFiles (files.map fs) 0 initState
  if st.allMetrics.isEmpty then
    pure (.noData "No metrics extracted from any FIO output files. Exiting.")
  else
    pure (.report (perRunSection st.rows) (aggregatedTable st))

/-! ### Well-shaped documents (the shape `parse_fio_output` expects) -/

/-- The field, if present, is a JSON number (absence falls back to the
numeric default of the corresponding `.get`). -/
def numOpt : Option Json → Bool
  | none => true
  | some (.num _) => true
  | some _ => false

/-- A latency block, if present, is a JSON object whose `mean` and `stddev`
fields, if present, are numbers. -/
def latShaped : Option Json → Bool
  | none => true
  | some (.obj kvs) =>
    numOpt (lookupLast kvs "mean") && numOpt (lookupLast kvs "stddev")
  | some _ => false

/-- A `read`/`write` section, if present, is an object with numeric
`bw`/`iops` (if present) and well-shaped latency blocks. -/
def rwShaped : Option Json → Bool
  | none => true
  | some (.obj kvs) =>
    numOpt (lookupLast kvs "bw") && numOpt (lookupLast kvs "iops") &&
    latShaped (lookupLast kvs "lat_ns") && latShaped (lookupLast kvs "lat_us") &&
    latShaped (lookupLast kvs "lat_ms")
  | some _ => false

/-- A job entry of the expected shape. -/
def jobShaped : Json → Bool
  | .obj kvs =>
    numOpt (lookupLast kvs "usr_cpu") && numOpt (lookupLast kvs "sys_cpu") &&
    rwShaped (lookupLast kvs "read") && rwShaped (lookupLast kvs "write")
  | _ => false

/-- A document of the shape `parse_fio_output` expects: a JSON object whose
`jobs` entry, when present, is a list whose first entry, when present, is a
well-shaped job. -/
def wellShaped : Json → Bool
  | .obj kvs =>
    match lookupLast kvs "jobs" with
    | none => true
    | some (.arr []) => true
    | some (.arr (j :: _)) => jobShaped j
    | some _ => false
  | _ => false

/-! ### The latency probe as a declarative priority list (spec wording) -/

/-- Modelled from the spec's wording: the six candidates "read-ns, read-us,
read-ms, write-ns, write-us, write-ms" with their conversion factors, as an
explicit ordered list. -/
def latencyCandidates : List (String × String × ℚ) :=
  [("read", "lat_ns", 1000000), ("read", "lat_us", 1000),
   ("read", "lat_ms", 1), ("write", "lat_ns", 1000000),
   ("write", "lat_us", 1000), ("write", "lat_ms", 1)]

/-- Modelled from the spec's wording: probe the candidates in list order,
the first present and non-empty (truthy) one wins. -/
def firstTruthySpec (job : Json) :
    List (String × String × ℚ) → Except PyError (Option (Json × ℚ))
  | [] => pure none
  | (sect, field, f) :: rest => do
    let v ← candidate job sect field
    if truthy v then pure (some (v, f)) else firstTruthySpec job rest

/-- A good latency candidate value: either falsy (skipped) or an object
with numeric `mean`/`stddev` when present. -/
def goodLat (v : Json) : Prop :=
  truthy v = false ∨ ∃ kvs3, v = .obj kvs3 ∧
    numOpt (lookupLast kvs3 "mean") = true ∧
    numOpt (lookupLast kvs3 "stddev") = true

/-- A good probe outcome: nothing selected, or a well-shaped object with
its factor. -/
def goodSel (sel : Option (Json × ℚ)) : Prop :=
  sel = none ∨ ∃ kvs3 f, sel = some (.obj kvs3, f) ∧
    numOpt (lookupLast kvs3 "mean") = true ∧
    numOpt (lookupLast kvs3 "stddev") = true

/-! ### Concrete documents used as instances -/

/-- A job whose `read` block populates both `lat_ns` and `lat_us`. -/
def jobBoth : Json := .obj [("read", .obj [
  ("lat_ns", .obj [("mean", .num 5000000), ("stddev", .num 0)]),
  ("lat_us", .obj [("mean", .num 7000), ("stddev", .num 1)])])]

def docBoth : Json := .obj [("jobs", .arr [jobBoth])]

/-- A job with `read.bw = 2048` and no `write` block. -/
def jobBw : Json := .obj [("read", .obj [("bw", .num 2048)])]

def docBw : Json := .obj [("jobs", .arr [jobBw])]

/-- The extraction result for `docBw` (numeric values kept in the exact
arithmetic form the extraction produces; rational arithmetic does not
reduce definitionally, so normalisation is done in the theorems). -/
def outBwRaw : ExtractOut :=
  ⟨[], [("cpu_usr", .num 0), ("cpu_sys", .num 0), ("cpu_total", .num (0 + 0)),
        ("bandwidth", .num ((2048 + 0) / 1024)), ("avg_latency", .num 0),
        ("stdev_latency", .num 0), ("iops", .num (0 + 0))],
      [("cpu_usr", "%"), ("cpu_sys", "%"), ("cpu_total", "%"),
       ("bandwidth", "MiB/s"), ("avg_latency", "N/A"),
       ("stdev_latency", "N/A"), ("iops", "ops/s")]⟩

/-! ### Elimination lemmas for the parsing loop -/

/-- The values a run contributes to `avg_latency_values`: its `avg_latency`
value when present with a unit other than `"N/A"`, nothing otherwise (the
error branch of `pyToQ` is unreachable for a run the loop accepted). -/
def avgContrib (out : ExtractOut) : List ℚ :=
  match lookupLast out.metrics "avg_latency" with
  | some v =>
    if (lookupLast out.units "avg_latency") ≠ some "N/A" then
      match pyToQ v with
      | .ok q => [q]
      | .error _ => []
    else []
  | none => []

/-- Likewise for `stdev_latency_values`. -/
def stdevContrib (out : ExtractOut) : List ℚ :=
  match lookupLast out.metrics "stdev_latency" with
  | some v =>
    if (lookupLast out.units "stdev_latency") ≠ some "N/A" then
      match pyToQ v with
      | .ok q => [q]
      | .error _ => []
    else []
  | none => []

/-! ### Concrete pipeline scenarios

Numeric values in the `...Raw` states are kept in the exact arithmetic form
the loop produces (rational arithmetic does not reduce definitionally);
the theorems normalise them. -/

/-- Run-1 document of the three-run scenario. -/
def doc1 : Json := .obj [("jobs", .arr [.obj [("usr_cpu", .num 1),
  ("sys_cpu", .num 2),
  ("read", .obj [("bw", .num 1024), ("iops", .num 100),
    ("lat_us", .obj [("mean", .num 2000), ("stddev", .num 1000)])])]])]

/-- Run-3 document of the three-run scenario. -/
def doc3 : Json := .obj [("jobs", .arr [.obj [("usr_cpu", .num 3),
  ("sys_cpu", .num 4),
  ("read", .obj [("bw", .num 3072), ("iops", .num 300),
    ("lat_us", .obj [("mean", .num 4000), ("stddev", .num 3000)])])]])]

/-- The filesystem of the three-run scenario: file 2 is missing. -/
def fsC8 : String → FileInput := fun name =>
  if name = "p1.json" then .valid doc1
  else if name = "p3.json" then .valid doc3
  else .missing

def cells1 : List (String × ℚ) :=
  [("cpu_usr (%)", 1), ("cpu_sys (%)", 2), ("cpu_total (%)", 1 + 2),
   ("bandwidth (MiB/s)", (1024 + 0) / 1024), ("avg_latency (ms)", 2000 / 1000),
   ("stdev_latency (ms)", 1000 / 1000), ("iops (ops/s)", 100 + 0)]

def cells3 : List (String × ℚ) :=
  [("cpu_usr (%)", 3), ("cpu_sys (%)", 4), ("cpu_total (%)", 3 + 4),
   ("bandwidth (MiB/s)", (3072 + 0) / 1024), ("avg_latency (ms)", 4000 / 1000),
   ("stdev_latency (ms)", 3000 / 1000), ("iops (ops/s)", 300 + 0)]

def sevenUnits : List (String × String) :=
  [("cpu_usr", "%"), ("cpu_sys", "%"), ("cpu_total", "%"),
   ("bandwidth", "MiB/s"), ("avg_latency", "ms"), ("stdev_latency", "ms"),
   ("iops", "ops/s")]

/-- Loop state after the three-run scenario, raw arithmetic form. -/
def stRaw : LoopState :=
  { allMetrics := [("cpu_usr", [1, 3]), ("cpu_sys", [2, 4]),
      ("cpu_total", [1 + 2, 3 + 4]),
      ("bandwidth", [(1024 + 0) / 1024, (3072 + 0) / 1024]),
      ("avg_latency", [2000 / 1000, 4000 / 1000]),
      ("stdev_latency", [1000 / 1000, 3000 / 1000]),
      ("iops", [100 + 0, 300 + 0])],
    unitsMap := sevenUnits,
    avgVals := [2000 / 1000, 4000 / 1000],
    stdevVals := [1000 / 1000, 3000 / 1000],
    rows := [⟨1, cells1⟩, ⟨3, cells3⟩],
    diags := ["Error: File not found", "Could not extract metrics. Skipping."] }

/-- Loop state after processing `[doc1]` alone, raw arithmetic form. -/
def st1Raw : LoopState :=
  { allMetrics := [("cpu_usr", [1]), ("cpu_sys", [2]), ("cpu_total", [1 + 2]),
      ("bandwidth", [(1024 + 0) / 1024]), ("avg_latency", [2000 / 1000]),
      ("stdev_latency", [1000 / 1000]), ("iops", [100 + 0])],
    unitsMap := sevenUnits,
    avgVals := [2000 / 1000],
    stdevVals := [1000 / 1000],
    rows := [⟨1, cells1⟩],
    diags := [] }

/-! ### Cross-run latency collections (claim C5) -/

/-- Modelled from the spec's wording: the `avg_latency` values of the
accepted runs whose `avg_latency` unit was not `"N/A"`, in run order. -/
def collectAvgList : List FileInput → List ℚ
  | [] => []
  | f :: rest =>
    (match parse_fio_output f with
     | .ok out => if out.metrics.isEmpty then [] else avgContrib out
     | .error _ => []) ++ collectAvgList rest

/-- Likewise for `stdev_latency`. -/
def collectStdevList : List FileInput → List ℚ
  | [] => []
  | f :: rest =>
    (match parse_fio_output f with
     | .ok out => if out.metrics.isEmpty then [] else stdevContrib out
     | .error _ => []) ++ collectStdevList rest

/-- Documents for the mixed-latency scenario. -/
def docL1 : Json := .obj [("jobs", .arr [.obj [("read", .obj [
  ("lat_ms", .obj [("mean", .num 5), ("stddev", .num 2)])])]])]

def docL2 : Json := .obj [("jobs", .arr [.obj [("usr_cpu", .num 1)]])]

def docL3 : Json := .obj [("jobs", .arr [.obj [("write", .obj [
  ("lat_ms", .obj [("mean", .num 7), ("stddev", .num 4)])])]])]

def cellsL1 : List (String × ℚ) :=
  [("cpu_usr (%)", 0), ("cpu_sys (%)", 0), ("cpu_total (%)", 0 + 0),
   ("bandwidth (MiB/s)", (0 + 0) / 1024), ("avg_latency (ms)", 5 / 1),
   ("stdev_latency (ms)", 2 / 1), ("iops (ops/s)", 0 + 0)]

def cellsL2 : List (String × ℚ) :=
  [("cpu_usr (%)", 1), ("cpu_sys (%)", 0), ("cpu_total (%)", 1 + 0),
   ("bandwidth (MiB/s)", (0 + 0) / 1024), ("avg_latency (N/A)", 0),
   ("stdev_latency (N/A)", 0), ("iops (ops/s)", 0 + 0)]

def cellsL3 : List (String × ℚ) :=
  [("cpu_usr (%)", 0), ("cpu_sys (%)", 0), ("cpu_total (%)", 0 + 0),
   ("bandwidth (MiB/s)", (0 + 0) / 1024), ("avg_latency (ms)", 7 / 1),
   ("stdev_latency (ms)", 4 / 1), ("iops (ops/s)", 0 + 0)]

def sevenUnitsNa : List (String × String) :=
  [("cpu_usr", "%"), ("cpu_sys", "%"), ("cpu_total", "%"),
   ("bandwidth", "MiB/s"), ("avg_latency", "N/A"), ("stdev_latency", "N/A"),
   ("iops", "ops/s")]

/-- Loop state of the mixed scenario (runs with 5 ms, no latency, 7 ms). -/
def stMixedRaw : LoopState :=
  { allMetrics := [("cpu_usr", [0, 1, 0]), ("cpu_sys", [0, 0, 0]),
      ("cpu_total", [0 + 0, 1 + 0, 0 + 0]),
      ("bandwidth", [(0 + 0) / 1024, (0 + 0) / 1024, (0 + 0) / 1024]),
      ("avg_latency", [5 / 1, 0, 7 / 1]),
      ("stdev_latency", [2 / 1, 0, 4 / 1]),
      ("iops", [0 + 0, 0 + 0, 0 + 0])],
    unitsMap := sevenUnits,
    avgVals := [5 / 1, 7 / 1],
    stdevVals := [2 / 1, 4 / 1],
    rows := [⟨1, cellsL1⟩, ⟨2, cellsL2⟩, ⟨3, cellsL3⟩],
    diags := [] }

/-- Loop state of the scenario where no run has latency data. -/
def stNaRaw : LoopState :=
  { allMetrics := [("cpu_usr", [1, 1]), ("cpu_sys", [0, 0]),
      ("cpu_total", [1 + 0, 1 + 0]),
      ("bandwidth", [(0 + 0) / 1024, (0 + 0) / 1024]),
      ("avg_latency", [0, 0]), ("stdev_latency", [0, 0]),
      ("iops", [0 + 0, 0 + 0])],
    unitsMap := sevenUnitsNa,
    avgVals := [],
    stdevVals := [],
    rows := [⟨1, cellsL2⟩, ⟨2, cellsL2⟩],
    diags := [] }

/-! ### Per-run table (claim C8) -/

/-- A run contributes a per-run row exactly when its parse succeeds with at
least one metric. -/
def contributes (f : FileInput) : Bool :=
  match parse_fio_output f with
  | .ok d => !d.metrics.isEmpty
  | .error _ => false

def cellsP1 : List (String × ℚ) :=
  [("cpu_usr (%)", 1), ("cpu_sys (%)", 2), ("cpu_total (%)", 3),
   ("bandwidth (MiB/s)", 1), ("avg_latency (ms)", 2),
   ("stdev_latency (ms)", 1), ("iops (ops/s)", 100)]

def cellsP3 : List (String × ℚ) :=
  [("cpu_usr (%)", 3), ("cpu_sys (%)", 4), ("cpu_total (%)", 7),
   ("bandwidth (MiB/s)", 3), ("avg_latency (ms)", 4),
   ("stdev_latency (ms)", 3), ("iops (ops/s)", 300)]

/-- `stRaw` with all values normalised. -/
def stPretty : LoopState :=
  { allMetrics := [("cpu_usr", [1, 3]), ("cpu_sys", [2, 4]),
      ("cpu_total", [3, 7]), ("bandwidth", [1, 3]), ("avg_latency", [2, 4]),
      ("stdev_latency", [1, 3]), ("iops", [100, 300])],
    unitsMap := sevenUnits,
    avgVals := [2, 4],
    stdevVals := [1, 3],
    rows := [⟨1, cellsP1⟩, ⟨3, cellsP3⟩],
    diags := ["Error: File not found", "Could not extract metrics. Skipping."] }

def fnsLit : List String :=
  ["Run", "cpu_usr (%)", "cpu_sys (%)", "cpu_total (%)", "bandwidth (MiB/s)",
   "avg_latency (ms)", "stdev_latency (ms)", "iops (ops/s)"]

def rowsLit : List (List Cell) :=
  [[.q 1, .q 1, .q 2, .q 3, .q 1, .q 2, .q 1, .q 100],
   [.q 3, .q 3, .q 4, .q 7, .q 3, .q 4, .q 3, .q 300]]

def aggLit : List (List Cell) :=
  [[.str "Metric", .str "Average", .str "Std Dev", .str "Unit", .str "Min",
    .str "Max"],
   [.str "Cpu Usr", .q 2, .stdevOf 2, .str "%", .q 1, .q 3],
   [.str "Cpu Sys", .q 3, .stdevOf 2, .str "%", .q 2, .q 4],
   [.str "Cpu Total", .q 5, .stdevOf 8, .str "%", .q 3, .q 7],
   [.str "Bandwidth", .q 2, .stdevOf 2, .str "MiB/s", .q 1, .q 3],
   [.str "Avg Latency", .q 3, .stdevOf 2, .str "ms", .q 2, .q 4],
   [.str "Stdev Latency", .q 2, .stdevOf 2, .str "ms", .q 1, .q 3],
   [.str "Iops", .q 200, .stdevOf 20000, .str "ops/s", .q 100, .q 300],
   [.str "Average Latency", .str "", .str "", .str "ms", .q 2, .q 4],
   [.str "Standard Deviation Latency", .str "", .str "", .str "ms", .q 1,
    .q 3]]

/-! ### Generic lemmas about the `Except` embedding -/

theorem exbind_ok {ε α β : Type} {x : Except ε α} {f : α → Except ε β} {b : β} :
    x >>= f = .ok b ↔ ∃ a, x = .ok a ∧ f a = .ok b := by
  cases x with
  | error e => simp [Bind.bind, Except.bind]
  | ok a => simp [Bind.bind, Except.bind]

@[simp] theorem ok_bind {ε α β : Type} (a : α) (f : α → Except ε β) :
    (Except.ok a : Except ε α) >>= f = f a := rfl

@[simp] theorem error_bind {ε α β : Type} (e : ε) (f : α → Except ε β) :
    (Except.error e : Except ε α) >>= f = .error e := rfl

/-- Every successful `extractJob` decomposes into the successive successful
Python operations of lines 32–90, and its `metrics` and `units` dicts are
exactly the seven-entry literals in source insertion order. -/
theorem extractJob_ok_elim {job : Json} {m : List (String × Json)}
    {u : List (String × String)} (h : extractJob job = .ok (m, u)) :
    ∃ usr sys total rbw wbw bwsum bw sel lat riops wiops iops,
      pyGet job "usr_cpu" (.num 0) = .ok usr ∧
      pyGet job "sys_cpu" (.num 0) = .ok sys ∧
      pyAdd usr sys = .ok total ∧
      pyGetIn job "read" "bw" (.num 0) = .ok rbw ∧
      pyGetIn job "write" "bw" (.num 0) = .ok wbw ∧
      pyAdd rbw wbw = .ok bwsum ∧
      pyDiv bwsum 1024 = .ok bw ∧
      selectLatency job = .ok sel ∧
      latPart sel = .ok lat ∧
      pyGetIn job "read" "iops" (.num 0) = .ok riops ∧
      pyGetIn job "write" "iops" (.num 0) = .ok wiops ∧
      pyAdd riops wiops = .ok iops ∧
      m = [("cpu_usr", usr), ("cpu_sys", sys), ("cpu_total", total),
           ("bandwidth", bw), ("avg_latency", lat.1),
           ("stdev_latency", lat.2.1), ("iops", iops)] ∧
      u = [("cpu_usr", "%"), ("cpu_sys", "%"), ("cpu_total", "%"),
           ("bandwidth", "MiB/s"), ("avg_latency", lat.2.2),
           ("stdev_latency", lat.2.2), ("iops", "ops/s")] := by
  rw [extractJob] at h
  simp only [exbind_ok, pure, Except.pure, Except.ok.injEq, Prod.mk.injEq] at h
  obtain ⟨usr, h1, sys, h2, total, h3, rbw, h4, wbw, h5, bwsum, h6, bw, h7,
    sel, h8, lat, h9, riops, h10, wiops, h11, iops, h12, hm, hu⟩ := h
  exact ⟨usr, sys, total, rbw, wbw, bwsum, bw, sel, lat, riops, wiops, iops,
    h1, h2, h3, h4, h5, h6, h7, h8, h9, h10, h11, h12, hm.symm, hu.symm⟩

/-- Converse construction: successful steps assemble into a successful
`extractJob`. -/
theorem extractJob_eq_of {job : Json} {usr sys total rbw wbw bwsum bw riops
    wiops iops : Json} {sel : Option (Json × ℚ)} {lat : Json × Json × String}
    (h1 : pyGet job "usr_cpu" (.num 0) = .ok usr)
    (h2 : pyGet job "sys_cpu" (.num 0) = .ok sys)
    (h3 : pyAdd usr sys = .ok total)
    (h4 : pyGetIn job "read" "bw" (.num 0) = .ok rbw)
    (h5 : pyGetIn job "write" "bw" (.num 0) = .ok wbw)
    (h6 : pyAdd rbw wbw = .ok bwsum)
    (h7 : pyDiv bwsum 1024 = .ok bw)
    (h8 : selectLatency job = .ok sel)
    (h9 : latPart sel = .ok lat)
    (h10 : pyGetIn job "read" "iops" (.num 0) = .ok riops)
    (h11 : pyGetIn job "write" "iops" (.num 0) = .ok wiops)
    (h12 : pyAdd riops wiops = .ok iops) :
    extractJob job = .ok
      ([("cpu_usr", usr), ("cpu_sys", sys), ("cpu_total", total),
        ("bandwidth", bw), ("avg_latency", lat.1),
        ("stdev_latency", lat.2.1), ("iops", iops)],
       [("cpu_usr", "%"), ("cpu_sys", "%"), ("cpu_total", "%"),
        ("bandwidth", "MiB/s"), ("avg_latency", lat.2.2),
        ("stdev_latency", lat.2.2), ("iops", "ops/s")]) := by
  rw [extractJob, h1, ok_bind, h2, ok_bind, h3, ok_bind, h4, ok_bind, h5,
    ok_bind, h6, ok_bind, h7, ok_bind, h8, ok_bind, h9, ok_bind, h10, ok_bind,
    h11, ok_bind, h12, ok_bind]
  rfl

theorem pyGet_num {kvs : List (String × Json)} {k : String} {d : ℚ}
    (h : numOpt (lookupLast kvs k) = true) :
    ∃ q, pyGet (.obj kvs) k (.num d) = .ok (.num q) := by
  cases hv : lookupLast kvs k with
  | none => exact ⟨d, by simp [pyGet, hv]⟩
  | some v =>
    rw [hv] at h
    cases v with
    | num q => exact ⟨q, by simp [pyGet, hv]⟩
    | null => simp [numOpt] at h
    | bool b => simp [numOpt] at h
    | str s => simp [numOpt] at h
    | arr l => simp [numOpt] at h
    | obj kvs2 => simp [numOpt] at h

theorem pyGet_lat {kvs : List (String × Json)} {field : String}
    (h : latShaped (lookupLast kvs field) = true) :
    ∃ v, pyGet (.obj kvs) field .null = .ok v ∧
      (truthy v = false ∨ ∃ kvs3, v = .obj kvs3 ∧
        numOpt (lookupLast kvs3 "mean") = true ∧
        numOpt (lookupLast kvs3 "stddev") = true) := by
  cases hv : lookupLast kvs field with
  | none => exact ⟨.null, by simp [pyGet, hv], Or.inl rfl⟩
  | some v =>
    rw [hv] at h
    cases v with
    | obj kvs3 =>
      refine ⟨.obj kvs3, by simp [pyGet, hv], Or.inr ⟨kvs3, rfl, ?_, ?_⟩⟩ <;>
        simp [latShaped] at h <;> tauto
    | null => exact ⟨.null, by simp [pyGet, hv], Or.inl rfl⟩
    | bool b => simp [latShaped] at h
    | num q => simp [latShaped] at h
    | str s => simp [latShaped] at h
    | arr l => simp [latShaped] at h

theorem section_shaped {kvs : List (String × Json)} {sect : String}
    (h : rwShaped (lookupLast kvs sect) = true) :
    ∃ skvs, pyGet (.obj kvs) sect (.obj []) = .ok (.obj skvs) ∧
      numOpt (lookupLast skvs "bw") = true ∧
      numOpt (lookupLast skvs "iops") = true ∧
      latShaped (lookupLast skvs "lat_ns") = true ∧
      latShaped (lookupLast skvs "lat_us") = true ∧
      latShaped (lookupLast skvs "lat_ms") = true := by
  cases hv : lookupLast kvs sect with
  | none =>
    exact ⟨[], by simp [pyGet, hv], by simp [lookupLast, numOpt],
      by simp [lookupLast, numOpt], by simp [lookupLast, latShaped],
      by simp [lookupLast, latShaped], by simp [lookupLast, latShaped]⟩
  | some v =>
    rw [hv] at h
    cases v with
    | obj skvs =>
      refine ⟨skvs, by simp [pyGet, hv], ?_, ?_, ?_, ?_, ?_⟩ <;>
        simp [rwShaped] at h <;> tauto
    | null => simp [rwShaped] at h
    | bool b => simp [rwShaped] at h
    | num q => simp [rwShaped] at h
    | str s => simp [rwShaped] at h
    | arr l => simp [rwShaped] at h

/-- The nested `if/elif` chain equals the declarative first-match probe. -/
theorem selectLatency_eq_spec (job : Json) :
    selectLatency job = firstTruthySpec job latencyCandidates := rfl

theorem firstTruthySpec_ok {job : Json} {cands : List (String × String × ℚ)}
    (h : ∀ c ∈ cands, ∃ v, candidate job c.1 c.2.1 = .ok v ∧ goodLat v) :
    ∃ sel, firstTruthySpec job cands = .ok sel ∧ goodSel sel := by
  induction cands with
  | nil => exact ⟨none, rfl, Or.inl rfl⟩
  | cons c rest ih =>
    obtain ⟨sect, field, f⟩ := c
    obtain ⟨v, hv, hprop⟩ := h _ (List.mem_cons_self _ _)
    simp only [firstTruthySpec]
    rw [hv, ok_bind]
    by_cases ht : truthy v = true
    · rcases hprop with hfalse | ⟨kvs3, rfl, hm, hs⟩
      · rw [ht] at hfalse; exact absurd hfalse (by simp)
      · exact ⟨some (.obj kvs3, f), by rw [if_pos ht]; rfl,
          Or.inr ⟨kvs3, f, rfl, hm, hs⟩⟩
    · rw [if_neg ht]
      exact ih (fun c hc => h c (List.mem_cons_of_mem _ hc))

theorem latPart_ok {sel : Option (Json × ℚ)} (h : goodSel sel) :
    ∃ lat, latPart sel = .ok lat ∧ (lat.2.2 = "ms" ∨ lat.2.2 = "N/A") := by
  rcases h with rfl | ⟨kvs3, f, rfl, hm, hs⟩
  · exact ⟨(.num 0, .num 0, "N/A"), rfl, Or.inr rfl⟩
  · obtain ⟨mq, hmq⟩ := pyGet_num (d := 0) hm
    obtain ⟨sq, hsq⟩ := pyGet_num (d := 0) hs
    refine ⟨(.num (mq / f), .num (sq / f), "ms"), ?_, Or.inl rfl⟩
    rw [latPart, hmq, ok_bind]
    rw [show pyDiv (.num mq) f = .ok (.num (mq / f)) from rfl, ok_bind]
    rw [hsq, ok_bind]
    rfl

theorem extractJob_total {job : Json} (h : jobShaped job = true) :
    ∃ mu, extractJob job = .ok mu := by
  cases job with
  | obj kvs =>
    simp only [jobShaped, Bool.and_eq_true] at h
    obtain ⟨⟨⟨husr, hsys⟩, hread⟩, hwrite⟩ := h
    obtain ⟨uq, hu⟩ := pyGet_num (d := 0) husr
    obtain ⟨sq, hs⟩ := pyGet_num (d := 0) hsys
    obtain ⟨rkvs, hrget, hrbw, hriops, hrns, hrus, hrms⟩ := section_shaped hread
    obtain ⟨wkvs, hwget, hwbw, hwiops, hwns, hwus, hwms⟩ := section_shaped hwrite
    obtain ⟨rbq, hrb⟩ := pyGet_num (d := 0) hrbw
    obtain ⟨wbq, hwb⟩ := pyGet_num (d := 0) hwbw
    obtain ⟨riq, hri⟩ := pyGet_num (d := 0) hriops
    obtain ⟨wiq, hwi⟩ := pyGet_num (d := 0) hwiops
    have hcand : ∀ c ∈ latencyCandidates,
        ∃ v, candidate (Json.obj kvs) c.1 c.2.1 = .ok v ∧ goodLat v := by
      intro c hc
      have step : ∀ (sect field : String) (skvs : List (String × Json)),
          pyGet (.obj kvs) sect (.obj []) = .ok (.obj skvs) →
          latShaped (lookupLast skvs field) = true →
          ∃ v, candidate (Json.obj kvs) sect field = .ok v ∧ goodLat v := by
        intro sect field skvs hget hlat
        obtain ⟨v, hv, hp⟩ := pyGet_lat hlat
        exact ⟨v, by rw [candidate, pyGetIn, hget, ok_bind, hv], hp⟩
      simp only [latencyCandidates, List.mem_cons, List.not_mem_nil,
        or_false] at hc
      rcases hc with rfl | rfl | rfl | rfl | rfl | rfl
      · exact step _ _ _ hrget hrns
      · exact step _ _ _ hrget hrus
      · exact step _ _ _ hrget hrms
      · exact step _ _ _ hwget hwns
      · exact step _ _ _ hwget hwus
      · exact step _ _ _ hwget hwms
    obtain ⟨sel, hsel, hgood⟩ := firstTruthySpec_ok hcand
    obtain ⟨lat, hlat, _⟩ := latPart_ok hgood
    refine ⟨_, extractJob_eq_of hu hs
      (show pyAdd (.num uq) (.num sq) = .ok (.num (uq + sq)) from rfl) ?_ ?_
      (show pyAdd (.num rbq) (.num wbq) = .ok (.num (rbq + wbq)) from rfl)
      (show pyDiv (.num (rbq + wbq)) 1024 = .ok (.num ((rbq + wbq) / 1024))
        from rfl)
      ((selectLatency_eq_spec _).trans hsel) hlat ?_ ?_
      (show pyAdd (.num riq) (.num wiq) = .ok (.num (riq + wiq)) from rfl)⟩
    · rw [pyGetIn, hrget, ok_bind, hrb]
    · rw [pyGetIn, hwget, ok_bind, hwb]
    · rw [pyGetIn, hrget, ok_bind, hri]
    · rw [pyGetIn, hwget, ok_bind, hwi]
  | null => simp [jobShaped] at h
  | bool b => simp [jobShaped] at h
  | num q => simp [jobShaped] at h
  | str s => simp [jobShaped] at h
  | arr l => simp [jobShaped] at h

/-- On a well-shaped document no exception escapes `parse_fio_output`. -/
theorem parse_total {doc : Json} (h : wellShaped doc = true) :
    ∃ out, parse_fio_output (.valid doc) = .ok out := by
  cases doc with
  | obj kvs =>
    simp only [wellShaped] at h
    rw [parse_fio_output]
    cases hj : lookupLast kvs "jobs" with
    | none =>
      rw [show pyContains (.obj kvs) "jobs" = .ok false by simp [pyContains, hj],
        ok_bind]
      exact ⟨⟨[], [], []⟩, rfl⟩
    | some v =>
      rw [hj] at h
      rw [show pyContains (.obj kvs) "jobs" = .ok true by simp [pyContains, hj],
        ok_bind, if_pos rfl,
        show pySubscript (.obj kvs) "jobs" = .ok v by simp [pySubscript, hj],
        ok_bind]
      cases v with
      | arr l =>
        cases l with
        | nil =>
          rw [show pyLen (.arr []) = .ok 0 from rfl, ok_bind]
          exact ⟨⟨[], [], []⟩, rfl⟩
        | cons j rest =>
          obtain ⟨mu, hmu⟩ := extractJob_total h
          rw [show pyLen (.arr (j :: rest)) = .ok (rest.length + 1) from rfl,
            ok_bind, if_pos (Nat.succ_pos _),
            show pyIndexZero (.arr (j :: rest)) = .ok j from rfl, ok_bind,
            hmu, ok_bind]
          exact ⟨⟨[], mu.1, mu.2⟩, rfl⟩
      | null => simp at h
      | bool b => simp at h
      | num q => simp at h
      | str s => simp at h
      | obj kvs2 => simp at h
  | null => simp [wellShaped] at h
  | bool b => simp [wellShaped] at h
  | num q => simp [wellShaped] at h
  | str s => simp [wellShaped] at h
  | arr l => simp [wellShaped] at h

@[simp] theorem pure_eq_ok {ε α : Type} (a : α) :
    (pure a : Except ε α) = .ok a := rfl

theorem latPart_unit {sel : Option (Json × ℚ)} {lat : Json × Json × String}
    (h : latPart sel = .ok lat) : lat.2.2 = "ms" ∨ lat.2.2 = "N/A" := by
  cases sel with
  | none =>
    simp only [latPart, pure_eq_ok] at h
    cases h
    exact Or.inr rfl
  | some p =>
    obtain ⟨ld, f⟩ := p
    simp only [latPart] at h
    obtain ⟨m, _, h⟩ := exbind_ok.mp h
    obtain ⟨avg, _, h⟩ := exbind_ok.mp h
    obtain ⟨sd, _, h⟩ := exbind_ok.mp h
    obtain ⟨sdv, _, h⟩ := exbind_ok.mp h
    rw [pure_eq_ok] at h
    cases h
    exact Or.inl rfl

/-! ### Claims -/

/-- Claim C1, amended: a missing file yields the file-not-found diagnostic
and an empty result; malformed JSON yields the invalid-JSON diagnostic and
an empty result; and no error escapes on any well-shaped document.  (The
original "for any document content whatsoever" is refuted by
`claim_C1_counterexample`: valid JSON of an unexpected shape makes an
exception propagate; likewise an unreadable-but-existing file raises an
uncaught `OSError`.) -/
theorem claim_C1 (doc : Json) (h : wellShaped doc = true) :
    parse_fio_output .missing = .ok ⟨["Error: File not found"], [], []⟩ ∧
    parse_fio_output .invalidJson = .ok ⟨["Error: Invalid JSON"], [], []⟩ ∧
    ∃ out, parse_fio_output (.valid doc) = .ok out :=
  ⟨rfl, rfl, parse_total h⟩

/-- Claim C1, counterexample to the original statement: the document whose
content is the JSON number `5` makes `'jobs' in data` raise a `TypeError`
that escapes `parse_fio_output` — a structural error propagates past the
Extractor, there is no diagnostic-and-empty-result recovery. -/
theorem claim_C1_counterexample :
    parse_fio_output (.valid (.num 5)) = .error .typeError := rfl

theorem claim_C1_witness :
    wellShaped docBoth = true ∧
    (parse_fio_output .missing = .ok ⟨["Error: File not found"], [], []⟩ ∧
     parse_fio_output .invalidJson = .ok ⟨["Error: Invalid JSON"], [], []⟩ ∧
     ∃ out, parse_fio_output (.valid docBoth) = .ok out) :=
  ⟨rfl, claim_C1 docBoth rfl⟩

/-- Claim C2: the Extractor probes the six latency candidates in the strict
order read-ns, read-us, read-ms, write-ns, write-us, write-ms — the nested
`if/elif` chain equals the declarative first-truthy-match over
`latencyCandidates` — the winner's `mean` and `stddev` are divided by its
factor with unit `ms`; and on a document with both `read.lat_ns` and
`read.lat_us` populated the nanosecond source wins: mean 5000000 ns comes
out as `avg_latency = 5` ms (not the 7 ms the microsecond block holds). -/
theorem claim_C2 :
    (∀ job, selectLatency job = firstTruthySpec job latencyCandidates) ∧
    (∀ (ld : Json) (f mq sq : ℚ),
      pyGet ld "mean" (.num 0) = .ok (.num mq) →
      pyGet ld "stddev" (.num 0) = .ok (.num sq) →
      latPart (some (ld, f)) = .ok (.num (mq / f), .num (sq / f), "ms")) ∧
    (∃ out, parse_fio_output (.valid docBoth) = .ok out ∧
      lookupLast out.metrics "avg_latency" = some (.num 5) ∧
      lookupLast out.metrics "stdev_latency" = some (.num 0) ∧
      lookupLast out.units "avg_latency" = some "ms") := by
  refine ⟨selectLatency_eq_spec, ?_, ?_⟩
  · intro ld f mq sq hm hs
    rw [latPart, hm, ok_bind,
      show pyDiv (.num mq) f = .ok (.num (mq / f)) from rfl, ok_bind,
      hs, ok_bind,
      show pyDiv (.num sq) f = .ok (.num (sq / f)) from rfl, ok_bind,
      pure_eq_ok]
  · refine ⟨⟨[], [("cpu_usr", .num 0), ("cpu_sys", .num 0),
      ("cpu_total", .num (0 + 0)), ("bandwidth", .num ((0 + 0) / 1024)),
      ("avg_latency", .num (5000000 / 1000000)),
      ("stdev_latency", .num (0 / 1000000)), ("iops", .num (0 + 0))],
      [("cpu_usr", "%"), ("cpu_sys", "%"), ("cpu_total", "%"),
       ("bandwidth", "MiB/s"), ("avg_latency", "ms"),
       ("stdev_latency", "ms"), ("iops", "ops/s")]⟩, rfl, ?_, ?_, rfl⟩
    · show some (Json.num (5000000 / 1000000)) = some (.num 5)
      norm_num
    · show some (Json.num (0 / 1000000)) = some (.num 0)
      norm_num

theorem claim_C2_witness :
    pyGet (.obj [("mean", .num 5000000)]) "mean" (.num 0) =
      .ok (.num 5000000) ∧
    pyGet (.obj [("mean", .num 5000000)]) "stddev" (.num 0) = .ok (.num 0) ∧
    latPart (some (.obj [("mean", .num 5000000)], 1000000)) =
      .ok (.num (5000000 / 1000000), .num (0 / 1000000), "ms") :=
  ⟨rfl, rfl, claim_C2.2.1 _ 1000000 5000000 0 rfl rfl⟩

/-- Claim C3: for every job whose `read`/`write` bandwidth lookups (with
their 0 defaults) yield numbers `rbw`/`wbw`, the extracted `bandwidth`
metric is `(rbw + wbw) / 1024` with unit `MiB/s`. -/
theorem claim_C3 {job : Json} {m : List (String × Json)}
    {u : List (String × String)} {rbw wbw : ℚ}
    (hr : pyGetIn job "read" "bw" (.num 0) = .ok (.num rbw))
    (hw : pyGetIn job "write" "bw" (.num 0) = .ok (.num wbw))
    (hok : extractJob job = .ok (m, u)) :
    lookupLast m "bandwidth" = some (.num ((rbw + wbw) / 1024)) ∧
    lookupLast u "bandwidth" = some "MiB/s" := by
  obtain ⟨usr, sys, total, rbw2, wbw2, bwsum, bw, sel, lat, riops, wiops, iops,
    h1, h2, h3, h4, h5, h6, h7, h8, h9, h10, h11, h12, hm, hu⟩ :=
    extractJob_ok_elim hok
  rw [hr] at h4
  rw [hw] at h5
  cases h4
  cases h5
  rw [show pyAdd (.num rbw) (.num wbw) = .ok (.num (rbw + wbw)) from rfl] at h6
  cases h6
  rw [show pyDiv (.num (rbw + wbw)) 1024 =
    .ok (.num ((rbw + wbw) / 1024)) from rfl] at h7
  cases h7
  subst hm
  subst hu
  exact ⟨rfl, rfl⟩

theorem claim_C3_witness :
    pyGetIn jobBw "read" "bw" (.num 0) = .ok (.num 2048) ∧
    pyGetIn jobBw "write" "bw" (.num 0) = .ok (.num 0) ∧
    ∃ m u, extractJob jobBw = .ok (m, u) ∧
      lookupLast m "bandwidth" = some (.num 2) ∧
      lookupLast u "bandwidth" = some "MiB/s" := by
  obtain ⟨⟨m, u⟩, hmu⟩ := @extractJob_total jobBw rfl
  have h := @claim_C3 jobBw m u 2048 0 rfl rfl hmu
  refine ⟨rfl, rfl, m, u, hmu, ?_, h.2⟩
  rw [h.1]
  norm_num

/-- Claim C10: whenever the Extractor returns a non-empty result, its
metric names are exactly the seven of the source, in insertion order, each
with a unit, and `avg_latency` and `stdev_latency` carry one common unit
that is `ms` or `N/A`. -/
theorem claim_C10 (input : FileInput) (out : ExtractOut)
    (hok : parse_fio_output input = .ok out) (hne : out.metrics ≠ []) :
    out.metrics.map Prod.fst =
      ["cpu_usr", "cpu_sys", "cpu_total", "bandwidth", "avg_latency",
       "stdev_latency", "iops"] ∧
    out.units.map Prod.fst =
      ["cpu_usr", "cpu_sys", "cpu_total", "bandwidth", "avg_latency",
       "stdev_latency", "iops"] ∧
    ∃ lu, lookupLast out.units "avg_latency" = some lu ∧
      lookupLast out.units "stdev_latency" = some lu ∧
      (lu = "ms" ∨ lu = "N/A") := by
  cases input with
  | missing =>
    rw [parse_fio_output] at hok
    cases hok
    exact absurd rfl hne
  | unreadable => simp [parse_fio_output] at hok
  | invalidJson =>
    rw [parse_fio_output] at hok
    cases hok
    exact absurd rfl hne
  | valid data =>
    simp only [parse_fio_output] at hok
    obtain ⟨hasJobs, hc, hok⟩ := exbind_ok.mp hok
    cases hasJobs with
    | false =>
      rw [if_neg (by simp)] at hok
      rw [pure_eq_ok] at hok
      cases hok
      exact absurd rfl hne
    | true =>
      rw [if_pos rfl] at hok
      obtain ⟨jobs, hsub, hok⟩ := exbind_ok.mp hok
      obtain ⟨n, hlen, hok⟩ := exbind_ok.mp hok
      by_cases hn : 0 < n
      · rw [if_pos hn] at hok
        obtain ⟨job, hidx, hok⟩ := exbind_ok.mp hok
        obtain ⟨mu, hmu, hok⟩ := exbind_ok.mp hok
        rw [pure_eq_ok] at hok
        cases hok
        obtain ⟨m, u⟩ := mu
        obtain ⟨usr, sys, total, rbw, wbw, bwsum, bw, sel, lat, riops, wiops,
          iops, _, _, _, _, _, _, _, _, h9, _, _, _, hm, hu⟩ :=
          extractJob_ok_elim hmu
        subst hm
        subst hu
        exact ⟨rfl, rfl, lat.2.2, rfl, rfl, latPart_unit h9⟩
      · rw [if_neg hn] at hok
        rw [pure_eq_ok] at hok
        cases hok
        exact absurd rfl hne

theorem claim_C10_witness :
    parse_fio_output (.valid docBw) = .ok outBwRaw ∧ outBwRaw.metrics ≠ [] ∧
    (outBwRaw.metrics.map Prod.fst =
      ["cpu_usr", "cpu_sys", "cpu_total", "bandwidth", "avg_latency",
       "stdev_latency", "iops"] ∧
     outBwRaw.units.map Prod.fst =
      ["cpu_usr", "cpu_sys", "cpu_total", "bandwidth", "avg_latency",
       "stdev_latency", "iops"] ∧
     ∃ lu, lookupLast outBwRaw.units "avg_latency" = some lu ∧
       lookupLast outBwRaw.units "stdev_latency" = some lu ∧
       (lu = "ms" ∨ lu = "N/A")) :=
  ⟨rfl, by simp [outBwRaw],
    claim_C10 (.valid docBw) outBwRaw rfl (by simp [outBwRaw])⟩

/-! ### Extrema of a series -/

theorem foldl_min_mem (x : ℚ) (xs : List ℚ) : xs.foldl min x ∈ x :: xs := by
  induction xs generalizing x with
  | nil => simp [List.foldl]
  | cons y ys ih =>
    simp only [List.foldl]
    rcases List.mem_cons.mp (ih (min x y)) with h | h
    · rcases min_choice x y with hm | hm
      · rw [h, hm]; exact List.mem_cons_self _ _
      · rw [h, hm]; exact List.mem_cons_of_mem _ (List.mem_cons_self _ _)
    · exact List.mem_cons_of_mem _ (List.mem_cons_of_mem _ h)

theorem foldl_min_le (x : ℚ) (xs : List ℚ) : ∀ y ∈ x :: xs, xs.foldl min x ≤ y := by
  induction xs generalizing x with
  | nil =>
    intro y hy
    rw [List.mem_singleton] at hy
    rw [hy]
    exact le_refl _
  | cons z zs ih =>
    intro y hy
    simp only [List.foldl]
    rcases List.mem_cons.mp hy with rfl | hy2
    · exact le_trans (ih (min y z) _ (List.mem_cons_self _ _)) (min_le_left _ _)
    · rcases List.mem_cons.mp hy2 with rfl | hy3
      · exact le_trans (ih (min x y) _ (List.mem_cons_self _ _)) (min_le_right _ _)
      · exact ih (min x z) _ (List.mem_cons_of_mem _ hy3)

theorem foldl_max_mem (x : ℚ) (xs : List ℚ) : xs.foldl max x ∈ x :: xs := by
  induction xs generalizing x with
  | nil => simp [List.foldl]
  | cons y ys ih =>
    simp only [List.foldl]
    rcases List.mem_cons.mp (ih (max x y)) with h | h
    · rcases max_choice x y with hm | hm
      · rw [h, hm]; exact List.mem_cons_self _ _
      · rw [h, hm]; exact List.mem_cons_of_mem _ (List.mem_cons_self _ _)
    · exact List.mem_cons_of_mem _ (List.mem_cons_of_mem _ h)

theorem foldl_le_max (x : ℚ) (xs : List ℚ) : ∀ y ∈ x :: xs, y ≤ xs.foldl max x := by
  induction xs generalizing x with
  | nil =>
    intro y hy
    rw [List.mem_singleton] at hy
    rw [hy]
    exact le_refl _
  | cons z zs ih =>
    intro y hy
    simp only [List.foldl]
    rcases List.mem_cons.mp hy with rfl | hy2
    · exact le_trans (le_max_left _ _) (ih (max y z) _ (List.mem_cons_self _ _))
    · rcases List.mem_cons.mp hy2 with rfl | hy3
      · exact le_trans (le_max_right _ _) (ih (max x y) _ (List.mem_cons_self _ _))
      · exact ih (max x z) _ (List.mem_cons_of_mem _ hy3)

theorem listMin_spec {values : List ℚ} (h : values ≠ []) :
    listMin values ∈ values ∧ ∀ x ∈ values, listMin values ≤ x := by
  match values with
  | y :: ys => exact ⟨foldl_min_mem y ys, foldl_min_le y ys⟩

theorem listMax_spec {values : List ℚ} (h : values ≠ []) :
    listMax values ∈ values ∧ ∀ x ∈ values, x ≤ listMax values := by
  match values with
  | y :: ys => exact ⟨foldl_max_mem y ys, foldl_le_max y ys⟩

/-- Claim C4: the summary row of a non-empty series has mean `Σ/n`, min and
max the extrema of the series, and a standard-deviation cell that renders
`sqrt(Σ(x−mean)²/(n−1))` when `n ≥ 2` and the literal `"N/A"` (not a
number, not an error) when `n = 1`; concretely `[10, 20, 30]` gives mean
20, sample stdev 10, min 10, max 30, and a singleton series gives `"N/A"`. -/
theorem claim_C4 (name unit : String) (values : List ℚ) (h : values ≠ []) :
    (aggRow "m" "u" [10, 20, 30] =
      [.str "M", .q 20, .stdevOf 100, .str "u", .q 10, .q 30] ∧
     cellReal (.stdevOf 100) = 10 ∧
     aggRow "m" "u" [10] = [.str "M", .q 10, .str "N/A", .str "u", .q 10, .q 10] ∧
     (Cell.str "N/A" ≠ .q 0 ∧ Cell.str "N/A" ≠ .stdevOf 0)) ∧
    aggRow name unit values =
      [.str (pyTitle (replaceUnderscores name)),
       .q (values.sum / values.length),
       if 1 < values.length then
         .stdevOf (sumSqDiff values / ((values.length : ℚ) - 1))
       else .str "N/A",
       .str unit, .q (listMin values), .q (listMax values)] ∧
    (listMin values ∈ values ∧ ∀ x ∈ values, listMin values ≤ x) ∧
    (listMax values ∈ values ∧ ∀ x ∈ values, x ≤ listMax values) ∧
    (values.length = 1 →
      aggRow name unit values =
        [.str (pyTitle (replaceUnderscores name)),
         .q (values.sum / values.length), .str "N/A", .str unit,
         .q (listMin values), .q (listMax values)]) := by
  refine ⟨⟨?_, ?_, ?_, by simp, by simp⟩, ?_, listMin_spec h, listMax_spec h, ?_⟩
  · norm_num [aggRow, sumSqDiff, listMin, listMax, min_def, max_def]
    rfl
  · show Real.sqrt ((100 : ℚ) : ℝ) = 10
    rw [show ((100 : ℚ) : ℝ) = (10 : ℝ) ^ 2 by norm_num]
    exact Real.sqrt_sq (by norm_num)
  · norm_num [aggRow, listMin, listMax]
    rfl
  · match values with
    | y :: ys => rfl
  · intro h1
    match values with
    | y :: ys =>
      simp only [aggRow]
      rw [if_neg (by rw [h1]; exact lt_irrefl 1)]

theorem claim_C4_witness :
    ([10, 20, 30] : List ℚ) ≠ [] ∧
    aggRow "m" "u" [10, 20, 30] =
      [.str "M", .q 20, .stdevOf 100, .str "u", .q 10, .q 30] ∧
    cellReal (.stdevOf 100) = 10 :=
  ⟨by simp, (claim_C4 "m" "u" [10, 20, 30] (by simp)).1.1,
   (claim_C4 "m" "u" [10, 20, 30] (by simp)).1.2.1⟩

/-- Claim C7: an invalid configuration (non-positive iteration count, or an
empty prefix — a non-string prefix is excluded by the embedding's types) is
rejected with the corresponding descriptive `ValueError` before any file is
touched (`pymain` fails identically for every filesystem); a valid one
yields exactly `num_iterations` names `pfx ++ i ++ ".json"` for the 1-based
indices `i`. -/
theorem claim_C7 :
    (∀ (it : Int) (pfx : String) (fs : String → FileInput), it ≤ 0 →
      pymain it pfx fs =
        .error (.valueError "num_iterations must be a positive integer.")) ∧
    (∀ (it : Int) (pfx : String) (fs : String → FileInput), 0 < it → pfx = "" →
      pymain it pfx fs =
        .error (.valueError "prefix must be a non-empty string.")) ∧
    (∀ (it : Int) (pfx : String), 0 < it → pfx ≠ "" →
      generate_fio_filenames it pfx =
        .ok ((List.range it.toNat).map
          (fun i => pfx ++ toString (i + 1) ++ ".json")) ∧
      ((List.range it.toNat).map
        (fun i => pfx ++ toString (i + 1) ++ ".json")).length = it.toNat) := by
  refine ⟨?_, ?_, ?_⟩
  · intro it pfx fs h
    rw [pymain, generate_fio_filenames, if_pos h, error_bind]
  · intro it pfx fs h1 h2
    rw [pymain, generate_fio_filenames, if_neg (not_le.mpr h1), if_pos h2,
      error_bind]
  · intro it pfx h1 h2
    refine ⟨?_, by simp⟩
    rw [generate_fio_filenames, if_neg (not_le.mpr h1), if_neg h2]

theorem claim_C7_witness :
    ((0 : Int) ≤ 0 ∧
      pymain 0 "p" (fun _ => FileInput.missing) =
        .error (.valueError "num_iterations must be a positive integer.")) ∧
    ((0 : Int) < 1 ∧ ("" : String) = "" ∧
      pymain 1 "" (fun _ => FileInput.missing) =
        .error (.valueError "prefix must be a non-empty string.")) ∧
    ((0 : Int) < 3 ∧ ("test_file_" : String) ≠ "" ∧
      generate_fio_filenames 3 "test_file_" =
        .ok ["test_file_1.json", "test_file_2.json", "test_file_3.json"]) := by
  refine ⟨⟨le_refl 0, claim_C7.1 0 "p" _ (le_refl 0)⟩,
    ⟨by norm_num, rfl, claim_C7.2.1 1 "" _ (by norm_num) rfl⟩,
    ⟨by norm_num, by simp, ?_⟩⟩
  exact (claim_C7.2.2 3 "test_file_" (by norm_num) (by simp)).1

theorem collectAvgStep_ok {out : ExtractOut} {st st2 : LoopState}
    (h : collectAvgStep out st = .ok st2) :
    st2 = { st with avgVals := st.avgVals ++ avgContrib out } := by
  rw [collectAvgStep] at h
  cases hv : lookupLast out.metrics "avg_latency" with
  | none =>
    simp only [hv, pure_eq_ok, Except.ok.injEq] at h
    simp [avgContrib, hv, h]
  | some v =>
    simp only [hv] at h
    by_cases hu : (lookupLast out.units "avg_latency") ≠ some "N/A"
    · rw [if_pos hu] at h
      obtain ⟨q, hq, h⟩ := exbind_ok.mp h
      rw [pure_eq_ok] at h
      cases h
      simp only [avgContrib, hv, if_pos hu, hq]
    · rw [if_neg hu] at h
      rw [pure_eq_ok] at h
      cases h
      simp only [avgContrib, hv, if_neg hu]
      simp

theorem collectStdevStep_ok {out : ExtractOut} {st st2 : LoopState}
    (h : collectStdevStep out st = .ok st2) :
    st2 = { st with stdevVals := st.stdevVals ++ stdevContrib out } := by
  rw [collectStdevStep] at h
  cases hv : lookupLast out.metrics "stdev_latency" with
  | none =>
    simp only [hv, pure_eq_ok, Except.ok.injEq] at h
    simp [stdevContrib, hv, h]
  | some v =>
    simp only [hv] at h
    by_cases hu : (lookupLast out.units "stdev_latency") ≠ some "N/A"
    · rw [if_pos hu] at h
      obtain ⟨q, hq, h⟩ := exbind_ok.mp h
      rw [pure_eq_ok] at h
      cases h
      simp only [stdevContrib, hv, if_pos hu, hq]
    · rw [if_neg hu] at h
      rw [pure_eq_ok] at h
      cases h
      simp only [stdevContrib, hv, if_neg hu]
      simp

/-- Every successful `processOne` either skipped an empty run (diagnostics
only) or appended the run's data everywhere it belongs. -/
theorem processOne_ok {i : Nat} {input : FileInput} {st st2 : LoopState}
    (hok : processOne i input st = .ok st2) :
    ∃ out, parse_fio_output input = .ok out ∧
      ((out.metrics.isEmpty = true ∧
        st2 = { st with diags := (st.diags ++ out.diags)
          ++ ["Could not extract metrics. Skipping."] }) ∨
       (out.metrics.isEmpty = false ∧ ∃ ac,
         innerLoop out.units out.metrics st.allMetrics [] = .ok ac ∧
         st2 = { st with
           diags := st.diags ++ out.diags,
           unitsMap := dictUpdate st.unitsMap out.units,
           allMetrics := ac.1,
           rows := st.rows ++ [⟨i + 1, ac.2⟩],
           avgVals := st.avgVals ++ avgContrib out,
           stdevVals := st.stdevVals ++ stdevContrib out })) := by
  rw [processOne] at hok
  obtain ⟨out, hp, hok⟩ := exbind_ok.mp hok
  refine ⟨out, hp, ?_⟩
  by_cases he : out.metrics.isEmpty
  · rw [if_pos he] at hok
    rw [pure_eq_ok] at hok
    cases hok
    exact Or.inl ⟨he, rfl⟩
  · rw [if_neg he] at hok
    obtain ⟨ac, hin, hok⟩ := exbind_ok.mp hok
    obtain ⟨st4, hst4, hok⟩ := exbind_ok.mp hok
    rw [collectAvgStep_ok hst4] at hok
    rw [collectStdevStep_ok hok]
    exact Or.inr ⟨Bool.not_eq_true _ ▸ (by simpa using he), ac, hin, rfl⟩

@[simp] theorem processFiles_nil (i : Nat) (st : LoopState) :
    processFiles [] i st = .ok st := rfl

theorem processFiles_cons (f : FileInput) (rest : List FileInput) (i : Nat)
    (st : LoopState) :
    processFiles (f :: rest) i st =
      (processOne i f st) >>= fun st2 => processFiles rest (i + 1) st2 := rfl

@[simp] theorem innerLoop_nil (units : List (String × String))
    (am : List (String × List ℚ)) (cells : List (String × ℚ)) :
    innerLoop units [] am cells = .ok (am, cells) := rfl

theorem innerLoop_cons (units : List (String × String)) (key : String)
    (value : Json) (rest : List (String × Json))
    (am : List (String × List ℚ)) (cells : List (String × ℚ)) :
    innerLoop units ((key, value) :: rest) am cells =
      (pyToQ value) >>= fun q =>
        innerLoop units rest (addMetric am key q)
          (cells ++ [(key ++ " (" ++ ((lookupLast units key).getD "") ++ ")", q)]) :=
  rfl

/-- Runs whose extraction yields no metrics leave the accumulators
untouched: only diagnostics change. -/
theorem processFiles_skip {inputs : List FileInput}
    (hall : ∀ f ∈ inputs, ∃ d, parse_fio_output f = .ok d ∧ d.metrics = []) :
    ∀ (i : Nat) (st : LoopState), ∃ st2, processFiles inputs i st = .ok st2 ∧
      st2.allMetrics = st.allMetrics ∧ st2.rows = st.rows := by
  induction inputs with
  | nil => intro i st; exact ⟨st, rfl, rfl, rfl⟩
  | cons f rest ih =>
    intro i st
    obtain ⟨d, hd, hde⟩ := hall f (List.mem_cons_self _ _)
    have hstep : processOne i f st = .ok { st with diags :=
        (st.diags ++ d.diags) ++ ["Could not extract metrics. Skipping."] } := by
      rw [processOne, hd, ok_bind, if_pos (by rw [hde]; rfl), pure_eq_ok]
    obtain ⟨st2, h2, hAM, hR⟩ :=
      ih (fun g hg => hall g (List.mem_cons_of_mem _ hg)) (i + 1)
        { st with diags :=
          (st.diags ++ d.diags) ++ ["Could not extract metrics. Skipping."] }
    refine ⟨st2, ?_, by rw [hAM], by rw [hR]⟩
    rw [processFiles_cons, hstep, ok_bind]
    exact h2

/-- Claim C6: when every attempted run parses to an empty result, `main`
stops with the "no data" diagnostic and produces no report (the outcome is
`noData`: the CSV-writing section is never reached). -/
theorem claim_C6 (it : Int) (pfx : String) (fs : String → FileInput)
    (files : List String)
    (hgen : generate_fio_filenames it pfx = .ok files)
    (hall : ∀ name ∈ files,
      ∃ d, parse_fio_output (fs name) = .ok d ∧ d.metrics = []) :
    pymain it pfx fs =
      .ok (.noData "No metrics extracted from any FIO output files. Exiting.") := by
  rw [pymain, hgen, ok_bind]
  have hall2 : ∀ f ∈ files.map fs,
      ∃ d, parse_fio_output f = .ok d ∧ d.metrics = [] := by
    intro f hf
    obtain ⟨name, hn, rfl⟩ := List.mem_map.mp hf
    exact hall name hn
  obtain ⟨st2, h2, hAM, _⟩ := processFiles_skip hall2 0 initState
  rw [h2, ok_bind, if_pos (by rw [hAM]; rfl), pure_eq_ok]

theorem claim_C6_witness :
    generate_fio_filenames 2 "f" =
      .ok ((List.range (2 : Int).toNat).map
        (fun i => "f" ++ toString (i + 1) ++ ".json")) ∧
    (∀ name ∈ (List.range (2 : Int).toNat).map
        (fun i => "f" ++ toString (i + 1) ++ ".json"),
      ∃ d, parse_fio_output FileInput.missing = .ok d ∧ d.metrics = []) ∧
    pymain 2 "f" (fun _ => FileInput.missing) =
      .ok (.noData "No metrics extracted from any FIO output files. Exiting.") :=
  ⟨rfl, fun name _ => ⟨⟨["Error: File not found"], [], []⟩, rfl, rfl⟩,
   claim_C6 2 "f" (fun _ => FileInput.missing) _ rfl
     (fun name _ => ⟨⟨["Error: File not found"], [], []⟩, rfl, rfl⟩)⟩

/-! ### Non-empty series invariant -/

theorem addMetric_nonempty {m : List (String × List ℚ)} {k : String} {v : ℚ}
    (h : ∀ p ∈ m, p.2 ≠ []) : ∀ p ∈ addMetric m k v, p.2 ≠ [] := by
  intro p hp
  rw [addMetric] at hp
  split at hp
  · obtain ⟨q, hq, rfl⟩ := List.mem_map.mp hp
    by_cases hk : q.1 = k
    · rw [if_pos hk]
      simp
    · rw [if_neg hk]
      exact h q hq
  · rcases List.mem_append.mp hp with h1 | h2
    · exact h p h1
    · rw [List.mem_singleton] at h2
      rw [h2]
      simp

theorem innerLoop_nonempty : ∀ {ms : List (String × Json)}
    {units : List (String × String)} {am : List (String × List ℚ)}
    {cells : List (String × ℚ)} {ac},
    (∀ p ∈ am, p.2 ≠ []) → innerLoop units ms am cells = .ok ac →
    ∀ p ∈ ac.1, p.2 ≠ [] := by
  intro ms
  induction ms with
  | nil =>
    intro units am cells ac h hok
    rw [innerLoop_nil] at hok
    cases hok
    exact h
  | cons kv rest ih =>
    intro units am cells ac h hok
    obtain ⟨key, value⟩ := kv
    rw [innerLoop_cons] at hok
    obtain ⟨q, hq, hok⟩ := exbind_ok.mp hok
    exact ih (addMetric_nonempty h) hok

theorem processFiles_nonempty : ∀ {inputs : List FileInput} {i : Nat}
    {st st2 : LoopState}, processFiles inputs i st = .ok st2 →
    (∀ p ∈ st.allMetrics, p.2 ≠ []) → ∀ p ∈ st2.allMetrics, p.2 ≠ [] := by
  intro inputs
  induction inputs with
  | nil =>
    intro i st st2 hok h
    rw [processFiles_nil] at hok
    cases hok
    exact h
  | cons f rest ih =>
    intro i st st2 hok h
    rw [processFiles_cons] at hok
    obtain ⟨stm, h1, hok⟩ := exbind_ok.mp hok
    obtain ⟨out, hp, hcase⟩ := processOne_ok h1
    rcases hcase with ⟨he, rfl⟩ | ⟨he, ac, hin, rfl⟩
    · exact ih hok h
    · exact ih hok (innerLoop_nonempty h hin)

/-- Claim C9: every metric series accumulated by the loop (hence every
series behind a summary-table row) is non-empty; and the summary row of an
empty series nonetheless is the "No data" row, not an error. -/
theorem claim_C9 (inputs : List FileInput) (st2 : LoopState)
    (hok : processFiles inputs 0 initState = .ok st2) :
    (∀ p ∈ st2.allMetrics, p.2 ≠ []) ∧
    (∀ name unit, aggRow name unit [] =
      [.str (pyTitle (replaceUnderscores name)), .str "No data", .str "N/A",
       .str "N/A", .str "N/A", .str "N/A"]) :=
  ⟨processFiles_nonempty hok (fun p hp => absurd hp (List.not_mem_nil p)),
   fun name unit => rfl⟩

theorem claim_C9_witness :
    processFiles [.valid doc1] 0 initState = .ok st1Raw ∧
    ((∀ p ∈ st1Raw.allMetrics, p.2 ≠ []) ∧
     (∀ name unit, aggRow name unit [] =
       [.str (pyTitle (replaceUnderscores name)), .str "No data", .str "N/A",
        .str "N/A", .str "N/A", .str "N/A"])) :=
  ⟨rfl, claim_C9 [.valid doc1] st1Raw rfl⟩

theorem collectAvgList_cons (f : FileInput) (rest : List FileInput) :
    collectAvgList (f :: rest) =
      (match parse_fio_output f with
       | .ok out => if out.metrics.isEmpty then [] else avgContrib out
       | .error _ => []) ++ collectAvgList rest := rfl

theorem collectStdevList_cons (f : FileInput) (rest : List FileInput) :
    collectStdevList (f :: rest) =
      (match parse_fio_output f with
       | .ok out => if out.metrics.isEmpty then [] else stdevContrib out
       | .error _ => []) ++ collectStdevList rest := rfl

theorem processFiles_latVals : ∀ {inputs : List FileInput} {i : Nat}
    {st st2 : LoopState}, processFiles inputs i st = .ok st2 →
    st2.avgVals = st.avgVals ++ collectAvgList inputs ∧
    st2.stdevVals = st.stdevVals ++ collectStdevList inputs := by
  intro inputs
  induction inputs with
  | nil =>
    intro i st st2 hok
    rw [processFiles_nil] at hok
    cases hok
    constructor <;> simp [collectAvgList, collectStdevList]
  | cons f rest ih =>
    intro i st st2 hok
    rw [processFiles_cons] at hok
    obtain ⟨stm, h1, hok⟩ := exbind_ok.mp hok
    obtain ⟨out, hp, hcase⟩ := processOne_ok h1
    obtain ⟨hA, hS⟩ := ih hok
    rcases hcase with ⟨he, rfl⟩ | ⟨he, ac, hin, rfl⟩
    · constructor
      · rw [hA]
        simp only [collectAvgList_cons, hp, he, if_true]
        simp
      · rw [hS]
        simp only [collectStdevList_cons, hp, he, if_true]
        simp
    · constructor
      · rw [hA]
        simp only [collectAvgList_cons, hp, he, Bool.false_eq_true, if_false]
        simp [List.append_assoc]
      · rw [hS]
        simp only [collectStdevList_cons, hp, he, Bool.false_eq_true, if_false]
        simp [List.append_assoc]

/-- Claim C5: a job with no truthy latency candidate gets `avg_latency` and
`stdev_latency` 0 with unit `N/A`; the cross-run latency collections carry
exactly the values of accepted runs whose latency unit was not `N/A`; the
extra latency min/max rows exist exactly when those collections are
non-empty (an empty collection leaves the table without any extra row);
concretely, runs of 5 ms / no-latency / 7 ms give collection `[5, 7]` and an
`Average Latency` row with min 5 and max 7, and two no-latency runs give a
table of just the header and seven metric rows. -/
theorem claim_C5 {job : Json} {m : List (String × Json)}
    {u : List (String × String)}
    (hsel : selectLatency job = .ok none)
    (hok : extractJob job = .ok (m, u)) :
    (lookupLast m "avg_latency" = some (.num 0) ∧
     lookupLast m "stdev_latency" = some (.num 0) ∧
     lookupLast u "avg_latency" = some "N/A" ∧
     lookupLast u "stdev_latency" = some "N/A") ∧
    (∀ (inputs : List FileInput) (st2 : LoopState),
      processFiles inputs 0 initState = .ok st2 →
      st2.avgVals = collectAvgList inputs ∧
      st2.stdevVals = collectStdevList inputs) ∧
    (∀ st : LoopState, st.avgVals = [] → st.stdevVals = [] →
      aggregatedTable st =
        [.str "Metric", .str "Average", .str "Std Dev", .str "Unit",
         .str "Min", .str "Max"]
        :: st.allMetrics.map
          (fun p => aggRow p.1 ((lookupLast st.unitsMap p.1).getD "") p.2)) ∧
    (∀ st : LoopState, st.avgVals ≠ [] →
      avgLatencyRow st ∈ aggregatedTable st) ∧
    (∀ st : LoopState, st.stdevVals ≠ [] →
      stdevLatencyRow st ∈ aggregatedTable st) ∧
    (processFiles [.valid docL1, .valid docL2, .valid docL3] 0 initState =
      .ok stMixedRaw ∧
     stMixedRaw.avgVals = [5, 7] ∧
     avgLatencyRow stMixedRaw =
       [.str "Average Latency", .str "", .str "", .str "ms", .q 5, .q 7]) ∧
    (processFiles [.valid docL2, .valid docL2] 0 initState = .ok stNaRaw ∧
     stNaRaw.avgVals = [] ∧ stNaRaw.stdevVals = [] ∧
     (aggregatedTable stNaRaw).length = 8 ∧
     (aggregatedTable stRaw).length = 10) := by
  refine ⟨?_, ?_, ?_, ?_, ?_, ⟨rfl, ?_, ?_⟩, rfl, rfl, rfl, rfl, rfl⟩
  · obtain ⟨usr, sys, total, rbw, wbw, bwsum, bw, sel, lat, riops, wiops,
      iops, _, _, _, _, _, _, _, h8, h9, _, _, _, hm, hu⟩ :=
      extractJob_ok_elim hok
    rw [hsel] at h8
    cases h8
    rw [show latPart none = .ok (.num 0, .num 0, "N/A") from rfl] at h9
    cases h9
    subst hm
    subst hu
    exact ⟨rfl, rfl, rfl, rfl⟩
  · intro inputs st2 hok2
    obtain ⟨hA, hS⟩ := processFiles_latVals hok2
    exact ⟨by simpa using hA, by simpa using hS⟩
  · intro st h1 h2
    rw [aggregatedTable, h1, h2]
    simp
  · intro st h
    rw [aggregatedTable]
    rw [if_neg (by simp [List.isEmpty_iff, h])]
    simp
  · intro st h
    rw [aggregatedTable]
    simp [List.isEmpty_iff]
    tauto
  · show ([5 / 1, 7 / 1] : List ℚ) = [5, 7]
    norm_num
  · rw [show avgLatencyRow stMixedRaw =
      [.str "Average Latency", .str "", .str "", .str "ms",
       .q (min (5 / 1) (7 / 1)), .q (max (5 / 1) (7 / 1))] from rfl]
    norm_num [min_def, max_def]

theorem claim_C5_witness :
    selectLatency (Json.obj []) = .ok none ∧
    ∃ m u, extractJob (Json.obj []) = .ok (m, u) ∧
      lookupLast m "avg_latency" = some (.num 0) ∧
      lookupLast u "avg_latency" = some "N/A" := by
  obtain ⟨⟨m, u⟩, hmu⟩ := @extractJob_total (.obj []) rfl
  have h := @claim_C5 (.obj []) m u rfl hmu
  exact ⟨rfl, m, u, hmu, h.1.1, h.1.2.2.1⟩

theorem processFiles_rowCount : ∀ {inputs : List FileInput} {i : Nat}
    {st st2 : LoopState}, processFiles inputs i st = .ok st2 →
    st2.rows.length = st.rows.length + inputs.countP contributes := by
  intro inputs
  induction inputs with
  | nil =>
    intro i st st2 hok
    rw [processFiles_nil] at hok
    cases hok
    simp
  | cons f rest ih =>
    intro i st st2 hok
    rw [processFiles_cons] at hok
    obtain ⟨stm, h1, hok⟩ := exbind_ok.mp hok
    obtain ⟨out, hp, hcase⟩ := processOne_ok h1
    have hcount := ih hok
    rcases hcase with ⟨he, rfl⟩ | ⟨he, ac, hin, rfl⟩
    · rw [hcount]
      have hc : contributes f = false := by simp [contributes, hp, he]
      simp [List.countP_cons, hc]
    · rw [hcount]
      have hc : contributes f = true := by simp [contributes, hp, he]
      simp only [List.countP_cons, hc, if_true]
      simp [List.length_append]
      omega

theorem insKey_mem (acc : List String) (k x : String) :
    x ∈ insKey acc k ↔ x ∈ acc ∨ x = k := by
  rw [insKey]
  split
  · next hc =>
    have hk : k ∈ acc := by
      have := List.elem_iff.mp hc
      exact this
    constructor
    · exact Or.inl
    · rintro (h | rfl)
      · exact h
      · exact hk
  · simp

theorem insKey_nodup (acc : List String) (k : String) (h : acc.Nodup) :
    (insKey acc k).Nodup := by
  rw [insKey]
  split
  · exact h
  · next hc =>
    have hk : k ∉ acc := by
      intro hmem
      exact absurd (List.elem_iff.mpr hmem) (by simp_all)
    simp [List.nodup_append, h, hk]

theorem foldl_insKey_mem (cells : List (String × ℚ)) :
    ∀ (acc : List String) (x : String),
      x ∈ cells.foldl (fun a kv => insKey a kv.1) acc ↔
        x ∈ acc ∨ ∃ v, (x, v) ∈ cells := by
  induction cells with
  | nil => intro acc x; simp
  | cons kv rest ih =>
    intro acc x
    obtain ⟨k, v⟩ := kv
    rw [List.foldl_cons, ih]
    simp only [insKey_mem, List.mem_cons, Prod.mk.injEq]
    constructor
    · rintro ((h | rfl) | ⟨w, hw⟩)
      · exact Or.inl h
      · exact Or.inr ⟨v, Or.inl ⟨rfl, rfl⟩⟩
      · exact Or.inr ⟨w, Or.inr hw⟩
    · rintro (h | ⟨w, ⟨rfl, rfl⟩ | hw⟩)
      · exact Or.inl (Or.inl h)
      · exact Or.inl (Or.inr rfl)
      · exact Or.inr ⟨w, hw⟩

theorem foldl_insKey_nodup (cells : List (String × ℚ)) :
    ∀ acc : List String, acc.Nodup →
      (cells.foldl (fun a kv => insKey a kv.1) acc).Nodup := by
  induction cells with
  | nil => intro acc h; exact h
  | cons kv rest ih =>
    intro acc h
    rw [List.foldl_cons]
    exact ih _ (insKey_nodup _ _ h)

theorem fieldnames_mem (rows : List RunRow) (x : String) :
    x ∈ fieldnames rows ↔
      x = "Run" ∨ ∃ r ∈ rows, ∃ v, (x, v) ∈ r.cells := by
  rw [fieldnames]
  have main : ∀ (rs : List RunRow) (acc : List String),
      x ∈ rs.foldl (fun a r => r.cells.foldl (fun a2 kv => insKey a2 kv.1) a) acc ↔
        x ∈ acc ∨ ∃ r ∈ rs, ∃ v, (x, v) ∈ r.cells := by
    intro rs
    induction rs with
    | nil => intro acc; simp
    | cons r rest ih =>
      intro acc
      rw [List.foldl_cons, ih, foldl_insKey_mem]
      constructor
      · rintro ((h | ⟨v, hv⟩) | ⟨r2, hr2, v, hv⟩)
        · exact Or.inl h
        · exact Or.inr ⟨r, List.mem_cons_self _ _, v, hv⟩
        · exact Or.inr ⟨r2, List.mem_cons_of_mem _ hr2, v, hv⟩
      · rintro (h | ⟨r2, hr2, v, hv⟩)
        · exact Or.inl (Or.inl h)
        · rcases List.mem_cons.mp hr2 with rfl | hr3
          · exact Or.inl (Or.inr ⟨v, hv⟩)
          · exact Or.inr ⟨r2, hr3, v, hv⟩
  rw [main]
  simp

theorem fieldnames_nodup (rows : List RunRow) : (fieldnames rows).Nodup := by
  rw [fieldnames]
  have main : ∀ (rs : List RunRow) (acc : List String), acc.Nodup →
      (rs.foldl (fun a r => r.cells.foldl (fun a2 kv => insKey a2 kv.1) a) acc).Nodup := by
    intro rs
    induction rs with
    | nil => intro acc h; exact h
    | cons r rest ih =>
      intro acc h
      rw [List.foldl_cons]
      exact ih _ (foldl_insKey_nodup _ _ h)
  exact main rows ["Run"] (by simp)

theorem renderRow_length (fns : List String) (r : RunRow) :
    (renderRow fns r).length = fns.length := by
  rw [renderRow, List.length_map]

theorem renderRow_get (fns : List String) (r : RunRow) (j : Nat) :
    (renderRow fns r)[j]? =
      (fns[j]?).map (fun k =>
        if k = "Run" then Cell.q r.run
        else
          match lookupLast r.cells k with
          | some v => .q v
          | none => .str "") := by
  rw [renderRow, List.getElem?_map]

theorem stRaw_eq_pretty : stRaw = stPretty := by
  norm_num [stRaw, stPretty, cells1, cells3, cellsP1, cellsP3]

theorem aggRow_cpu_usr : aggRow "cpu_usr" "%" [1, 3] =
    [.str "Cpu Usr", .q 2, .stdevOf 2, .str "%", .q 1, .q 3] := by
  norm_num [aggRow, sumSqDiff, listMin, listMax, min_def, max_def]
  rfl

theorem aggRow_cpu_sys : aggRow "cpu_sys" "%" [2, 4] =
    [.str "Cpu Sys", .q 3, .stdevOf 2, .str "%", .q 2, .q 4] := by
  norm_num [aggRow, sumSqDiff, listMin, listMax, min_def, max_def]
  rfl

theorem aggRow_cpu_total : aggRow "cpu_total" "%" [3, 7] =
    [.str "Cpu Total", .q 5, .stdevOf 8, .str "%", .q 3, .q 7] := by
  norm_num [aggRow, sumSqDiff, listMin, listMax, min_def, max_def]
  rfl

theorem aggRow_bandwidth : aggRow "bandwidth" "MiB/s" [1, 3] =
    [.str "Bandwidth", .q 2, .stdevOf 2, .str "MiB/s", .q 1, .q 3] := by
  norm_num [aggRow, sumSqDiff, listMin, listMax, min_def, max_def]
  rfl

theorem aggRow_avg_latency : aggRow "avg_latency" "ms" [2, 4] =
    [.str "Avg Latency", .q 3, .stdevOf 2, .str "ms", .q 2, .q 4] := by
  norm_num [aggRow, sumSqDiff, listMin, listMax, min_def, max_def]
  rfl

theorem aggRow_stdev_latency : aggRow "stdev_latency" "ms" [1, 3] =
    [.str "Stdev Latency", .q 2, .stdevOf 2, .str "ms", .q 1, .q 3] := by
  norm_num [aggRow, sumSqDiff, listMin, listMax, min_def, max_def]
  rfl

theorem aggRow_iops : aggRow "iops" "ops/s" [100, 300] =
    [.str "Iops", .q 200, .stdevOf 20000, .str "ops/s", .q 100, .q 300] := by
  norm_num [aggRow, sumSqDiff, listMin, listMax, min_def, max_def]
  rfl

theorem aggTable_pretty : aggregatedTable stPretty = aggLit := by
  rw [show aggregatedTable stPretty =
    [[Cell.str "Metric", .str "Average", .str "Std Dev", .str "Unit",
      .str "Min", .str "Max"],
     aggRow "cpu_usr" "%" [1, 3], aggRow "cpu_sys" "%" [2, 4],
     aggRow "cpu_total" "%" [3, 7], aggRow "bandwidth" "MiB/s" [1, 3],
     aggRow "avg_latency" "ms" [2, 4], aggRow "stdev_latency" "ms" [1, 3],
     aggRow "iops" "ops/s" [100, 300], avgLatencyRow stPretty,
     stdevLatencyRow stPretty] from rfl]
  rw [aggRow_cpu_usr, aggRow_cpu_sys, aggRow_cpu_total, aggRow_bandwidth,
    aggRow_avg_latency, aggRow_stdev_latency, aggRow_iops]
  rw [show avgLatencyRow stPretty =
    [.str "Average Latency", .str "", .str "", .str "ms", .q (min 2 4),
     .q (max 2 4)] from rfl]
  rw [show stdevLatencyRow stPretty =
    [.str "Standard Deviation Latency", .str "", .str "", .str "ms",
     .q (min 1 3), .q (max 1 3)] from rfl]
  norm_num [min_def, max_def, aggLit]

/-- Claim C8: the per-run table has exactly one data row per accepted run;
its columns are `Run` followed by the union of the cell keys over all runs
(no duplicates), and every rendered row has one cell per column, with an
empty cell exactly where the run lacks the column's key; in the three-file
scenario with run 2 missing, `main` produces exactly the two rows for runs
1 and 3, each summary statistic drawing on exactly those two values. -/
theorem claim_C8 {inputs : List FileInput} {i : Nat} {st st2 : LoopState}
    (hok : processFiles inputs i st = .ok st2) :
    st2.rows.length = st.rows.length + inputs.countP contributes ∧
    (∀ (rows : List RunRow) (x : String),
      x ∈ fieldnames rows ↔ x = "Run" ∨ ∃ r ∈ rows, ∃ v, (x, v) ∈ r.cells) ∧
    (∀ rows : List RunRow, (fieldnames rows).Nodup) ∧
    (∀ (fns : List String) (r : RunRow),
      (renderRow fns r).length = fns.length) ∧
    (∀ (fns : List String) (r : RunRow) (j : Nat),
      (renderRow fns r)[j]? =
        (fns[j]?).map (fun k =>
          if k = "Run" then Cell.q r.run
          else
            match lookupLast r.cells k with
            | some v => .q v
            | none => .str "")) ∧
    (pymain 3 "p" fsC8 = .ok (.report (some (fnsLit, rowsLit)) aggLit) ∧
     rowsLit.length = 2 ∧
     stPretty.allMetrics =
       [("cpu_usr", [1, 3]), ("cpu_sys", [2, 4]), ("cpu_total", [3, 7]),
        ("bandwidth", [1, 3]), ("avg_latency", [2, 4]),
        ("stdev_latency", [1, 3]), ("iops", [100, 300])]) := by
  refine ⟨processFiles_rowCount hok, fieldnames_mem, fieldnames_nodup,
    renderRow_length, renderRow_get, ?_, rfl, rfl⟩
  have h1 : pymain 3 "p" fsC8 =
      .ok (.report (perRunSection stRaw.rows) (aggregatedTable stRaw)) := rfl
  rw [h1, stRaw_eq_pretty,
    show perRunSection stPretty.rows = some (fnsLit, rowsLit) from rfl,
    aggTable_pretty]

theorem claim_C8_witness :
    processFiles [FileInput.missing] 0 initState =
      .ok { initState with diags :=
        ["Error: File not found", "Could not extract metrics. Skipping."] } ∧
    ({ initState with diags :=
        ["Error: File not found",
         "Could not extract metrics. Skipping."] } : LoopState).rows.length =
      initState.rows.length + [FileInput.missing].countP contributes ∧
    pymain 3 "p" fsC8 = .ok (.report (some (fnsLit, rowsLit)) aggLit) := by
  have h := @claim_C8 [FileInput.missing] 0 initState
    { initState with diags :=
      ["Error: File not found", "Could not extract metrics. Skipping."] } rfl
  exact ⟨rfl, h.1, h.2.2.2.2.2.1⟩
